import Mathlib

/-!
# sqlitexx: a shallow embedding of `sqlitexx.hpp`

The header wraps the SQLite C interface: a type-erased `value`/`holder<T>` cell,
a `row` (a `std::map` from column name to cell), a positional `binder`, a positional
`extractor`, the `statement` life cycle and the `rowset` input iterator.

Conventions of the embedding.

* The engine (`sqlite3_*`) is external.  It is a parameter: a record `Engine σ` of
  functions over an arbitrary engine state `σ`.  Every native call made by the
  wrapper is also appended to a log, so that "which native calls were issued, in
  which order, with which arguments" is observable.
* C++ member functions mutate `*this` and their reference arguments in place and may
  throw.  Each one becomes a function returning the outcome (`Res`) together with
  the state as it is when the call returns or throws.
* `int` is a 32-bit and `long`, `long long`, `sqlite3_int64` are 64-bit signed
  integers (LP64); they are integers of `Int`, wrapped explicitly where the code
  converts.  A `double` is only moved around, never computed with: it is its bit
  pattern.
* `std::string` is a Lean `String` (it may contain the NUL character), each `Char`
  standing for one `char`; a `const char*` is the buffer it points to, read up to the
  first NUL, or null.
-/

namespace sqlitexx

/-! ## Result codes of `sqlite3.h` used by the header -/

/-- Result code `SQLITE_OK` of `sqlite3.h`. -/
def SQLITE_OK : Int := 0
/-- Result code `SQLITE_ERROR` of `sqlite3.h`. -/
def SQLITE_ERROR : Int := 1
/-- Result code `SQLITE_MISUSE` of `sqlite3.h`. -/
def SQLITE_MISUSE : Int := 21
/-- Result code `SQLITE_RANGE` of `sqlite3.h`. -/
def SQLITE_RANGE : Int := 25
/-- Result code `SQLITE_ROW` of `sqlite3.h`: `sqlite3_step` has a row ready. -/
def SQLITE_ROW : Int := 100
/-- Result code `SQLITE_DONE` of `sqlite3.h`: `sqlite3_step` has finished. -/
def SQLITE_DONE : Int := 101

/-! ## Exceptions and outcomes -/

/-- The exceptions thrown by the header.  `SQLiteError` keeps the two constructor
arguments `(code, msg)` of `error::SQLiteError`; `msg` defaults to `""`. -/
inductive Exn where
  | SQLiteError (code : Int) (msg : String)
  | bad_cast
  | range_error (what : String)
  deriving DecidableEq, Repr

/-- Outcome of a call: normal return, a thrown exception, `crash` when the code
runs into undefined behaviour by handing a null pointer to `strcmp` (the process is
killed, nothing runs after it and nothing can catch it), or `timeout` when the
model's iteration budget ran out before the C++ loop finished. -/
inductive Res (α : Type) where
  | ok (a : α)
  | throw (e : Exn)
  | crash
  | timeout
  deriving DecidableEq, Repr

/-- The call returned normally. -/
def Res.isOk {α : Type} : Res α → Bool
  | .ok _ => true
  | _ => false

/-- The call threw an exception. -/
def Res.isThrow {α : Type} : Res α → Bool
  | .throw _ => true
  | _ => false

/-- The outcome of code that runs `r` and, when `r` returns normally, returns `a`. -/
def Res.returning {α : Type} (r : Res Unit) (a : α) : Res α :=
  match r with
  | .ok () => .ok a
  | .throw e => .throw e
  | .crash => .crash
  | .timeout => .timeout

/-! ## Strings seen through `const char*` -/

/-- The NUL character that terminates a C string. -/
def NUL : Char := Char.ofNat 0

/-- The C string a `const char*` denotes: the bytes of the buffer before the first
NUL.  This is what `strlen`, `strcmp`, `std::string(const char*)` and
`std::string::assign(const char*)` read. -/
def c_str_view (buf : String) : String :=
  String.mk (buf.data.takeWhile (fun c => c != NUL))

/-- C `strlen`. -/
def strlen (buf : String) : Nat := (c_str_view buf).data.length

/-! ## `value` and `holder<T>` -/

/-- A `double`, carried as its 64-bit pattern. -/
structure Double where
  bits : Nat
  deriving DecidableEq, Repr

/-- The static types `T` at which `holder<T>`, `row::get<T>` and the extractor are
instantiated in this development. -/
inductive CType where
  | string
  | int
  | long
  | longlong
  | double
  deriving DecidableEq, Repr

/-- A `value*` pointing to a `holder<T>`: the dynamic type `T` (the constructor)
and the held `T`. -/
inductive value where
  | string (s : String)
  | int (v : Int)
  | long (v : Int)
  | longlong (v : Int)
  | double (d : Double)
  deriving DecidableEq, Repr

/-- The `T` of the `holder<T>` behind a `value*`. -/
def value.type : value → CType
  | .string _ => .string
  | .int _ => .int
  | .long _ => .long
  | .longlong _ => .longlong
  | .double _ => .double

/-- The member `value::get<T>()`: `dynamic_cast<holder<T>*>(this)`, `bad_cast` when it
is null, else the held value. -/
def value.get (T : CType) (v : value) : Res value :=
  if v.type = T then .ok v else .throw .bad_cast

/-! ## `row` -/

/-- A `row`: `columns_` is a `std::map<std::string, value*>`, kept as an association
list (the header never iterates it in key order). -/
structure row where
  columns_ : List (String × value)
  deriving DecidableEq, Repr

/-- A default-constructed `row`. -/
def row.empty : row := { columns_ := [] }

/-- The lookup `columns_.find(key)`; `none` is `columns_.end()`. -/
def row.find (r : row) (key : String) : Option value :=
  r.columns_.lookup key

/-- The member `row::get<T>(key)`. -/
def row.get (T : CType) (r : row) (key : String) : Res value :=
  match r.find key with
  | none => .throw (.range_error "nonexistent index requested")
  | some v => v.get T

/-- The member `row::size()`. -/
def row.size (r : row) : Nat := r.columns_.length

/-- The assignment `columns_[key] = v` of a `std::map`: overwrite the mapped value
when `key` is present, insert a new entry otherwise. -/
def map_assign (key : String) (v : value) : List (String × value) → List (String × value)
  | [] => [(key, v)]
  | (k, x) :: rest => if k = key then (k, v) :: rest else (k, x) :: map_assign key v rest

/-- The member `row::add<T>(key, val)`: the old cell of `key`, if any, is deleted and
`columns_[key]` is set to a new `holder<T>(val)`. -/
def row.add (r : row) (key : String) (v : value) : row :=
  { columns_ := map_assign key v r.columns_ }

/-! ## The engine and the log of native calls -/

/-- The four native bind operations with their arguments: the 1-based position, the
value and, for text, the byte count passed as fourth argument.  The text pointer is
recorded as the buffer it points to (`val` followed by its terminator in memory). -/
inductive NativeBind where
  | text (pos : Nat) (val : String) (n : Nat)
  | int (pos : Nat) (val : Int)
  | int64 (pos : Nat) (val : Int)
  | double (pos : Nat) (val : Double)
  deriving DecidableEq, Repr

/-- The position argument of a native bind. -/
def NativeBind.pos : NativeBind → Nat
  | .text p _ _ => p
  | .int p _ => p
  | .int64 p _ => p
  | .double p _ => p

/-- A native call as it is issued; the first argument is always the cursor handle
(`0` is the null pointer). -/
inductive Call where
  | bind (stmt : Nat) (b : NativeBind)
  | step (stmt : Nat)
  | reset (stmt : Nat)
  | finalize (stmt : Nat)
  | column_count (stmt : Nat)
  | column_decltype (stmt : Nat) (idx : Nat)
  | column_name (stmt : Nat) (idx : Nat)
  | column_text (stmt : Nat) (idx : Nat)
  | column_int (stmt : Nat) (idx : Nat)
  | column_int64 (stmt : Nat) (idx : Nat)
  | column_double (stmt : Nat) (idx : Nat)
  deriving DecidableEq, Repr

/-- The position of a logged call when it is a native bind. -/
def Call.bindPos : Call → Option Nat
  | .bind _ b => some b.pos
  | _ => none

/-- The logged call is a `sqlite3_step`. -/
def Call.isStep : Call → Bool
  | .step _ => true
  | _ => false

/-- The engine, as far as the header uses it.  Binding, stepping, resetting and
finalizing return a status and change the engine state; the column accessors read
the current row.  `sqlite3_column_text` returns the column's bytes, or `none` for a
null pointer.  `sqlite3_column_decltype` returns the C string pointed to, or `none`
for the null pointer it answers when the column is not a table column (an
expression, a parameter) or the index is out of range.  The name is returned as the
C string pointed to. -/
structure Engine (σ : Type) where
  sqlite3_bind : σ → Nat → NativeBind → Int × σ
  sqlite3_step : σ → Nat → Int × σ
  sqlite3_reset : σ → Nat → Int × σ
  sqlite3_finalize : σ → Nat → Int × σ
  sqlite3_column_count : σ → Nat → Int
  sqlite3_column_decltype : σ → Nat → Nat → Option String
  sqlite3_column_name : σ → Nat → Nat → String
  sqlite3_column_text : σ → Nat → Nat → Option String
  sqlite3_column_int : σ → Nat → Nat → Int
  sqlite3_column_int64 : σ → Nat → Nat → Int
  sqlite3_column_double : σ → Nat → Nat → Double

/-- The engine state together with the log of the native calls issued so far. -/
structure World (σ : Type) where
  eng : σ
  log : List Call

/-- Append a call to the log. -/
def World.note {σ : Type} (w : World σ) (c : Call) : World σ :=
  { eng := w.eng, log := w.log ++ [c] }

/-- Issue a native bind. -/
def native_bind {σ : Type} (E : Engine σ) (h : Nat) (b : NativeBind) (w : World σ) :
    Int × World σ :=
  ((E.sqlite3_bind w.eng h b).1,
   { eng := (E.sqlite3_bind w.eng h b).2, log := w.log ++ [Call.bind h b] })

/-- Issue `sqlite3_step`. -/
def native_step {σ : Type} (E : Engine σ) (h : Nat) (w : World σ) : Int × World σ :=
  ((E.sqlite3_step w.eng h).1,
   { eng := (E.sqlite3_step w.eng h).2, log := w.log ++ [Call.step h] })

/-- Issue `sqlite3_reset`. -/
def native_reset {σ : Type} (E : Engine σ) (h : Nat) (w : World σ) : Int × World σ :=
  ((E.sqlite3_reset w.eng h).1,
   { eng := (E.sqlite3_reset w.eng h).2, log := w.log ++ [Call.reset h] })

/-- Issue `sqlite3_finalize`. -/
def native_finalize {σ : Type} (E : Engine σ) (h : Nat) (w : World σ) : Int × World σ :=
  ((E.sqlite3_finalize w.eng h).1,
   { eng := (E.sqlite3_finalize w.eng h).2, log := w.log ++ [Call.finalize h] })

/-! ## `binding::binder` -/

/-- A `boost::uuids::uuid`: its 16 bytes. -/
structure uuid where
  data : List Nat
  deriving DecidableEq, Repr

/-- One lowercase hexadecimal digit. -/
def hex_digit (n : Nat) : Char :=
  if n < 10 then Char.ofNat (48 + n) else Char.ofNat (87 + n)

/-- The stream output of boost for a uuid: two hex digits per byte, a dash after the
bytes 3, 5, 7 and 9. -/
def uuid_chars : Nat → List Nat → List Char
  | _, [] => []
  | i, b :: bs =>
    hex_digit (b / 16 % 16) :: hex_digit (b % 16) ::
      ((if i = 3 ∨ i = 5 ∨ i = 7 ∨ i = 9 then [Char.ofNat 45] else []) ++ uuid_chars (i + 1) bs)

/-- The string `s.str()` after `s << val`. -/
def uuid.str (u : uuid) : String := String.mk (uuid_chars 0 u.data)

/-- The argument of a bind call, tagged with its static type, which selects the
specialisation of `binder::operator()`. -/
inductive BindArg where
  | cstr (val : String)
  | string (val : String)
  | int (val : Int)
  | long (val : Int)
  | longlong (val : Int)
  | double (val : Double)
  | uuid (val : uuid)
  deriving DecidableEq, Repr

/-- A `binder`: `bound_` is the `std::vector<bool>`.  The member `statement_` is a
reference to the handle of the owning statement; the handle is passed at each
call. -/
structure binder where
  bound_ : List Bool
  deriving DecidableEq, Repr

/-- The member `binder::reset()`. -/
def binder.reset (_b : binder) : binder := { bound_ := [] }

/-- The member `binder::check(rc)`. -/
def binder.check (b : binder) (rc : Int) : Res Unit × binder :=
  if rc ≠ 0 then (.throw (.SQLiteError rc ""), b)
  else (.ok (), { bound_ := b.bound_ ++ [true] })

/-- What a bind specialisation does with the native call it has chosen:
`check(sqlite3_bind_...(statement_, bound_.size()+1, ...))`. -/
def binder.issue {σ : Type} (E : Engine σ) (h : Nat) (b : binder) (c : NativeBind)
    (w : World σ) : Res Unit × binder × World σ :=
  ((b.check (native_bind E h c w).1).1, (b.check (native_bind E h c w).1).2,
   (native_bind E h c w).2)

/-- The specialisation `binder::operator()<std::string>`. -/
def binder.call_string {σ : Type} (E : Engine σ) (h : Nat) (b : binder) (val : String)
    (w : World σ) : Res Unit × binder × World σ :=
  b.issue E h (.text (b.bound_.length + 1) val (val.data.length + 1)) w

/-- The member `binder::operator()`, by specialisation. -/
def binder.call {σ : Type} (E : Engine σ) (h : Nat) (b : binder) (a : BindArg)
    (w : World σ) : Res Unit × binder × World σ :=
  match a with
  | .cstr val => b.issue E h (.text (b.bound_.length + 1) val (strlen val + 1)) w
  | .string val => b.call_string E h val w
  | .int val => b.issue E h (.int (b.bound_.length + 1) val) w
  | .long val => b.issue E h (.int64 (b.bound_.length + 1) val) w
  | .longlong val => b.issue E h (.int64 (b.bound_.length + 1) val) w
  | .double val => b.issue E h (.double (b.bound_.length + 1) val) w
  | .uuid val => b.call_string E h val.str w

/-- A chain of bind calls `b(a₁); b(a₂); ...` in order; the first one that throws
ends the chain. -/
def binder.call_all {σ : Type} (E : Engine σ) (h : Nat) :
    List BindArg → binder → World σ → Res Unit × binder × World σ
  | [], b, w => (.ok (), b, w)
  | a :: rest, b, w =>
    match b.call E h a w with
    | (.ok (), b', w') => binder.call_all E h rest b' w'
    | (r, b', w') => (r, b', w')

/-! ## `binding::extractor` -/

/-- An `extractor`: `extracted_` is the `std::vector<bool>`; the handle is passed at
each call, as for the binder. -/
structure extractor where
  extracted_ : List Bool
  deriving DecidableEq, Repr

/-- The member `extractor::reset()`. -/
def extractor.reset (_x : extractor) : extractor := { extracted_ := [] }

/-- The specialisation `extractor::operator()<std::string>`: the target is assigned
the C string returned by `sqlite3_column_text` unless the pointer is null. -/
def extractor.call_string {σ : Type} (E : Engine σ) (h : Nat) (x : extractor)
    (into : String) (w : World σ) : extractor × String × World σ :=
  ({ extracted_ := x.extracted_ ++ [true] },
   (match E.sqlite3_column_text w.eng h x.extracted_.length with
    | some s => c_str_view s
    | none => into),
   w.note (Call.column_text h x.extracted_.length))

/-- The specialisation `extractor::operator()<int>`. -/
def extractor.call_int {σ : Type} (E : Engine σ) (h : Nat) (x : extractor)
    (_into : Int) (w : World σ) : extractor × Int × World σ :=
  ({ extracted_ := x.extracted_ ++ [true] },
   E.sqlite3_column_int w.eng h x.extracted_.length,
   w.note (Call.column_int h x.extracted_.length))

/-- The specialisation `extractor::operator()<long>`: it reads with
`sqlite3_column_int`, and the `int` is widened to `long`. -/
def extractor.call_long {σ : Type} (E : Engine σ) (h : Nat) (x : extractor)
    (_into : Int) (w : World σ) : extractor × Int × World σ :=
  ({ extracted_ := x.extracted_ ++ [true] },
   E.sqlite3_column_int w.eng h x.extracted_.length,
   w.note (Call.column_int h x.extracted_.length))

/-- The specialisation `extractor::operator()<double>`. -/
def extractor.call_double {σ : Type} (E : Engine σ) (h : Nat) (x : extractor)
    (_into : Double) (w : World σ) : extractor × Double × World σ :=
  ({ extracted_ := x.extracted_ ++ [true] },
   E.sqlite3_column_double w.eng h x.extracted_.length,
   w.note (Call.column_double h x.extracted_.length))

/-- The specialisation `extractor::operator()<long long>`. -/
def extractor.call_longlong {σ : Type} (E : Engine σ) (h : Nat) (x : extractor)
    (_into : Int) (w : World σ) : extractor × Int × World σ :=
  ({ extracted_ := x.extracted_ ++ [true] },
   E.sqlite3_column_int64 w.eng h x.extracted_.length,
   w.note (Call.column_int64 h x.extracted_.length))

/-- The scalar specialisations of `extractor::operator()`, selected by the static
type of the target. -/
def extractor.call_scalar {σ : Type} (E : Engine σ) (h : Nat) (x : extractor)
    (into : value) (w : World σ) : extractor × value × World σ :=
  match into with
  | .string s =>
    ((x.call_string E h s w).1, .string (x.call_string E h s w).2.1, (x.call_string E h s w).2.2)
  | .int v => ((x.call_int E h v w).1, .int (x.call_int E h v w).2.1, (x.call_int E h v w).2.2)
  | .long v => ((x.call_long E h v w).1, .long (x.call_long E h v w).2.1, (x.call_long E h v w).2.2)
  | .longlong v =>
    ((x.call_longlong E h v w).1, .longlong (x.call_longlong E h v w).2.1,
     (x.call_longlong E h v w).2.2)
  | .double d =>
    ((x.call_double E h d w).1, .double (x.call_double E h d w).2.1, (x.call_double E h d w).2.2)

/-- The comparison `cnt > extracted_.size()` converts the `int` to `std::size_t`:
the count as a 64-bit unsigned number. -/
def to_size_t (cnt : Int) : Nat := (cnt % 2 ^ 64).toNat

/-- The `while` loop of `extractor::operator()<row>`, with `cnt` already read.  The
declared type goes to `strcmp` as it comes: when it is the null pointer the first
comparison is undefined behaviour and the outcome is `crash`.  The first argument
bounds the number of iterations of the model; when it is used up while the loop
condition still holds the outcome is `timeout`. -/
def extractor.row_loop {σ : Type} (E : Engine σ) (h : Nat) (cnt : Int) :
    Nat → extractor → row → World σ → Res Unit × extractor × row × World σ
  | 0, x, into, w =>
    if to_size_t cnt > x.extracted_.length then (.timeout, x, into, w) else (.ok (), x, into, w)
  | fuel + 1, x, into, w =>
    if to_size_t cnt > x.extracted_.length then
      let index := x.extracted_.length
      let ctype := E.sqlite3_column_decltype w.eng h x.extracted_.length
      let w1 := w.note (Call.column_decltype h x.extracted_.length)
      let cname := E.sqlite3_column_name w1.eng h index
      let w2 := w1.note (Call.column_name h index)
      if ctype = none then (.crash, x, into, w2)
      else if ctype = some "TEXT" then
        let r := x.call_string E h "" w2
        extractor.row_loop E h cnt fuel r.1 (into.add cname (.string r.2.1)) r.2.2
      else if ctype = some "FLOAT" then
        let r := x.call_double E h (Double.mk 0) w2
        extractor.row_loop E h cnt fuel r.1 (into.add cname (.double r.2.1)) r.2.2
      else if ctype = some "INTEGER" then
        let r := x.call_int E h 0 w2
        extractor.row_loop E h cnt fuel r.1 (into.add cname (.int r.2.1)) r.2.2
      else (.throw (.SQLiteError SQLITE_ERROR "Unsuported conversion"), x, into, w2)
    else (.ok (), x, into, w)

/-- The specialisation `extractor::operator()<row>`. -/
def extractor.call_row {σ : Type} (E : Engine σ) (h : Nat) (fuel : Nat) (x : extractor)
    (into : row) (w : World σ) : Res Unit × extractor × row × World σ :=
  extractor.row_loop E h (E.sqlite3_column_count w.eng h) fuel x into
    (w.note (Call.column_count h))

/-- The target of a fetch: a scalar of one of the supported types, or a generic
`row`. -/
inductive Target where
  | scalar (v : value)
  | row (r : row)
  deriving DecidableEq, Repr

/-- The member `extractor::operator()`, by the static type of the target. -/
def extractor.call {σ : Type} (E : Engine σ) (h : Nat) (fuel : Nat) (x : extractor)
    (into : Target) (w : World σ) : Res Unit × extractor × Target × World σ :=
  match into with
  | .scalar v =>
    (.ok (), (x.call_scalar E h v w).1, .scalar (x.call_scalar E h v w).2.1,
     (x.call_scalar E h v w).2.2)
  | .row r =>
    ((x.call_row E h fuel r w).1, (x.call_row E h fuel r w).2.1,
     .row (x.call_row E h fuel r w).2.2.1, (x.call_row E h fuel r w).2.2.2)

/-! ## `statement` -/

/-- A `statement`: the cursor handle `statement_` (`0` when null), the SQL text,
the binder and the extractor. -/
structure statement where
  statement_ : Nat
  sql_ : String
  binder_ : binder
  extractor_ : extractor
  deriving DecidableEq, Repr

/-- The member `statement::exec()`. -/
def statement.exec {σ : Type} (E : Engine σ) (st : statement) (w : World σ) :
    Res Unit × statement × World σ :=
  let rc := (native_step E st.statement_ w).1
  let w1 := (native_step E st.statement_ w).2
  if rc = SQLITE_ROW then (.throw (.SQLiteError rc "use fetch() instead of exec()"), st, w1)
  else if rc ≠ SQLITE_DONE then (.throw (.SQLiteError rc st.sql_), st, w1)
  else (.ok (), st, w1)

/-- The member `statement::fetch<T>(into)`. -/
def statement.fetch {σ : Type} (E : Engine σ) (fuel : Nat) (st : statement) (into : Target)
    (w : World σ) : Res Bool × statement × Target × World σ :=
  let rc := (native_step E st.statement_ w).1
  let w1 := (native_step E st.statement_ w).2
  if rc ≠ SQLITE_ROW ∧ rc ≠ SQLITE_DONE then (.throw (.SQLiteError rc ""), st, into, w1)
  else
    let r := st.extractor_.reset.call E st.statement_ fuel into w1
    (r.1.returning (decide (rc = SQLITE_ROW)), { st with extractor_ := r.2.1 }, r.2.2.1, r.2.2.2)

/-- The member `statement::reset()`. -/
def statement.reset {σ : Type} (E : Engine σ) (st : statement) (w : World σ) :
    Res Unit × statement × World σ :=
  if st.statement_ ≠ 0 then
    let rc := (native_reset E st.statement_ w).1
    let w1 := (native_reset E st.statement_ w).2
    if rc ≠ 0 then (.throw (.SQLiteError rc "finalize"), st, w1)
    else (.ok (), { st with binder_ := st.binder_.reset }, w1)
  else (.ok (), st, w)

/-- The member `statement::finalize()`. -/
def statement.finalize {σ : Type} (E : Engine σ) (st : statement) (w : World σ) :
    statement × World σ :=
  if st.statement_ ≠ 0 then
    ({ st with statement_ := 0, binder_ := st.binder_.reset },
     (native_finalize E st.statement_ w).2)
  else (st, w)

/-- The member `statement::operator%`. -/
def statement.bind {σ : Type} (E : Engine σ) (st : statement) (a : BindArg) (w : World σ) :
    Res Unit × statement × World σ :=
  let r := st.binder_.call E st.statement_ a w
  (r.1, { st with binder_ := r.2.1 }, r.2.2)

/-! ## `rowset` and `rowset_iterator` -/

/-- A `rowset<T>` together with the statement its reference member designates:
`statement_` is that statement, `current_` the slot of type `T`. -/
structure rowset where
  statement_ : statement
  current_ : Target
  deriving DecidableEq, Repr

/-- A `rowset_iterator<T>` of a given rowset.  Its two pointers are either null
(`false`) or the addresses of the statement and of the slot of that rowset
(`true`). -/
structure rowset_iterator where
  statement_ : Bool
  value_ : Bool
  deriving DecidableEq, Repr

/-- The member `rowset_iterator::operator==`. -/
def rowset_iterator.eq (a b : rowset_iterator) : Bool :=
  (a.statement_ == b.statement_) && (a.value_ == b.value_)

/-- The member `rowset_iterator::operator!=`. -/
def rowset_iterator.ne (a b : rowset_iterator) : Bool := !(a.eq b)

/-- The member `rowset::end()`: the default-constructed iterator. -/
def rowset.end_ : rowset_iterator := { statement_ := false, value_ := false }

/-- The member `rowset_iterator::operator++` on an iterator whose pointers designate
the statement and the slot of `rs` (incrementing a null iterator is undefined). -/
def rowset_iterator.incr {σ : Type} (E : Engine σ) (fuel : Nat) (it : rowset_iterator)
    (rs : rowset) (w : World σ) : Res rowset_iterator × rowset × World σ :=
  let r := rs.statement_.fetch E fuel rs.current_ w
  let rs1 : rowset := { statement_ := r.2.1, current_ := r.2.2.1 }
  match r.1 with
  | .ok b => (.ok (if b = false then { statement_ := false, value_ := false } else it), rs1, r.2.2.2)
  | .throw e => (.throw e, rs1, r.2.2.2)
  | .crash => (.crash, rs1, r.2.2.2)
  | .timeout => (.timeout, rs1, r.2.2.2)

/-- The member `rowset::begin()`: the iterator on the statement and the slot, advanced
once by its constructor. -/
def rowset.begin_ {σ : Type} (E : Engine σ) (fuel : Nat) (rs : rowset) (w : World σ) :
    Res rowset_iterator × rowset × World σ :=
  rowset_iterator.incr E fuel { statement_ := true, value_ := true } rs w

/-- The member `rowset_iterator::operator*`: the slot. -/
def rowset_iterator.deref (_it : rowset_iterator) (rs : rowset) : Target := rs.current_

/-- The loop `for (; it != rs.end(); ++it) use(*it)`; `seen` collects the values
dereferenced.  The first argument bounds the number of iterations of the model. -/
def rowset.for_loop {σ : Type} (E : Engine σ) (fuel : Nat) :
    Nat → rowset_iterator → rowset → List Target → World σ →
      Res rowset_iterator × List Target × rowset × World σ
  | 0, it, rs, seen, w =>
    if it.ne rowset.end_ then (.timeout, seen, rs, w) else (.ok it, seen, rs, w)
  | n + 1, it, rs, seen, w =>
    if it.ne rowset.end_ then
      let seen1 := seen ++ [it.deref rs]
      let r := it.incr E fuel rs w
      match r.1 with
      | .ok it1 => rowset.for_loop E fuel n it1 r.2.1 seen1 r.2.2
      | .throw e => (.throw e, seen1, r.2.1, r.2.2)
      | .crash => (.crash, seen1, r.2.1, r.2.2)
      | .timeout => (.timeout, seen1, r.2.1, r.2.2)
    else (.ok it, seen, rs, w)

/-- The loop `for (it = rs.begin(); it != rs.end(); ++it) use(*it)`. -/
def rowset.iterate {σ : Type} (E : Engine σ) (fuel : Nat) (n : Nat) (rs : rowset)
    (w : World σ) : Res rowset_iterator × List Target × rowset × World σ :=
  let r := rs.begin_ E fuel w
  match r.1 with
  | .ok it => rowset.for_loop E fuel n it r.2.1 [] r.2.2
  | .throw e => (.throw e, [], r.2.1, r.2.2)
  | .crash => (.crash, [], r.2.1, r.2.2)
  | .timeout => (.timeout, [], r.2.1, r.2.2)

/-! ## A table engine for concrete runs -/

/-- What the engine reports for one column of the current row: name, declared type
and the answer of each typed accessor. -/
structure Column where
  name : String
  decltype : String
  text : Option String
  int : Int
  int64 : Int
  double : Double
  deriving DecidableEq, Repr

/-- State of the table engine: the rows not yet stepped to and the current row. -/
structure Table where
  pending : List (List Column)
  current : List Column
  deriving DecidableEq, Repr

/-- The column `i` of a row; a column out of range reads as null. -/
def column_at (r : List Column) (i : Nat) : Column :=
  r.getD i { name := "", decltype := "", text := none, int := 0, int64 := 0, double := Double.mk 0 }

/-- An engine that steps through the pending rows of a table (`SQLITE_ROW` for
each, then `SQLITE_DONE`), accepts every bind, reset and finalize on a non-null
cursor and answers `SQLITE_MISUSE` on a null one.  Every column of a row is a table
column with a declared type; past the last column the declared type is the null
pointer. -/
def table_engine : Engine Table where
  sqlite3_bind := fun s h _ => (if h = 0 then SQLITE_MISUSE else SQLITE_OK, s)
  sqlite3_step := fun s h =>
    if h = 0 then (SQLITE_MISUSE, s)
    else match s.pending with
      | [] => (SQLITE_DONE, { pending := [], current := [] })
      | r :: rest => (SQLITE_ROW, { pending := rest, current := r })
  sqlite3_reset := fun s h => (if h = 0 then SQLITE_MISUSE else SQLITE_OK, s)
  sqlite3_finalize := fun s h => (if h = 0 then SQLITE_MISUSE else SQLITE_OK, s)
  sqlite3_column_count := fun s _ => s.current.length
  sqlite3_column_decltype := fun s _ i => (s.current.get? i).map Column.decltype
  sqlite3_column_name := fun s _ i => (column_at s.current i).name
  sqlite3_column_text := fun s _ i => (column_at s.current i).text
  sqlite3_column_int := fun s _ i => (column_at s.current i).int
  sqlite3_column_int64 := fun s _ i => (column_at s.current i).int64
  sqlite3_column_double := fun s _ i => (column_at s.current i).double

/-! ## Vocabulary of the statements proved below -/

/-- A sequence of `row::add` calls, in order, given as (name, value) pairs. -/
def row.add_all (adds : List (String × value)) (r : row) : row :=
  adds.foldl (fun acc p => acc.add p.1 p.2) r

/-- The names stored in a row. -/
def row.names (r : row) : List String := r.columns_.map Prod.fst

/-- A declared type that the generic-row decoder recognises: the engine answers a
string, and it is one of `TEXT`, `FLOAT`, `INTEGER`. -/
def recognised (decl : Option String) : Prop :=
  decl = some "TEXT" ∨ decl = some "FLOAT" ∨ decl = some "INTEGER"

instance (decl : Option String) : Decidable (recognised decl) := by
  unfold recognised; infer_instance

/-- The decoding of column `i` of the current row by declared type: a string for
`TEXT` (the C string of the text, empty when the engine answers null), a double for
`FLOAT`, a 32-bit int otherwise (used for `INTEGER`). -/
def decoded_cell {σ : Type} (E : Engine σ) (s : σ) (h i : Nat) : value :=
  if E.sqlite3_column_decltype s h i = some "TEXT" then
    .string (match E.sqlite3_column_text s h i with
      | some buf => c_str_view buf
      | none => "")
  else if E.sqlite3_column_decltype s h i = some "FLOAT" then
    .double (E.sqlite3_column_double s h i)
  else .int (E.sqlite3_column_int s h i)

/-- The (name, decoded cell) pairs of the `n` columns from index `start` on, in
column order. -/
def decoded_cells {σ : Type} (E : Engine σ) (s : σ) (h : Nat) : Nat → Nat → List (String × value)
  | _, 0 => []
  | start, n + 1 =>
    (E.sqlite3_column_name s h start, decoded_cell E s h start) :: decoded_cells E s h (start + 1) n

/-- The static type the generic-row decoder stores for a recognised declared type:
`std::string` for `TEXT`, `double` for `FLOAT`, `int` for `INTEGER`. -/
def ctype_of_decl (decl : Option String) : CType :=
  if decl = some "TEXT" then .string else if decl = some "FLOAT" then .double else .int

/-- An `INTEGER` column with the 32-bit reading `v`. -/
def int_column (name : String) (v : Int) : Column :=
  { name := name, decltype := "INTEGER", text := none, int := v, int64 := v,
    double := Double.mk 0 }

/-- A `TEXT` column holding the bytes `t`. -/
def text_column (name : String) (t : String) : Column :=
  { name := name, decltype := "TEXT", text := some t, int := 0, int64 := 0,
    double := Double.mk 0 }

/-- A `FLOAT` column holding the double `d`. -/
def float_column (name : String) (d : Double) : Column :=
  { name := name, decltype := "FLOAT", text := none, int := 0, int64 := 0, double := d }

/-- A column with the declared type `BLOB`. -/
def blob_column (name : String) : Column :=
  { name := name, decltype := "BLOB", text := none, int := 0, int64 := 0,
    double := Double.mk 0 }

/-- A statement on cursor 1 with a fresh binder and extractor. -/
def select_stmt : statement :=
  { statement_ := 1, sql_ := "SELECT a, b, c FROM t", binder_ := { bound_ := [] },
    extractor_ := { extracted_ := [] } }

/-- A table engine about to step to the rows given. -/
def table_world (rows : List (List Column)) : World Table :=
  { eng := { pending := rows, current := [] }, log := [] }

/-- The world `w1` comes from `w` by column reads only: the engine state is the same
and the log has grown by calls none of which is a `sqlite3_step`. -/
def World.reads_after {σ : Type} (w1 w : World σ) : Prop :=
  w1.eng = w.eng ∧ ∃ calls : List Call, w1.log = w.log ++ calls ∧ ∀ c ∈ calls, c.isStep = false

/-- Two targets have the same static type. -/
def Target.same_kind : Target → Target → Prop
  | .scalar u, .scalar v => u.type = v.type
  | .row _, .row _ => True
  | _, _ => False

/-- Every extraction into a target of the static type of `kind`, started from a
cleared extractor in engine state `s`, returns normally within the budget `fuel`. -/
def extraction_succeeds {σ : Type} (E : Engine σ) (h fuel : Nat) (kind : Target) (s : σ) :
    Prop :=
  ∀ (t : Target) (log : List Call), t.same_kind kind →
    ((extractor.mk []).call E h fuel t { eng := s, log := log }).1 = .ok ()

/-- From engine state `s`, the successive steps of cursor `h` report `SQLITE_ROW`
exactly `k` times and then `SQLITE_DONE`, and the extraction that follows each of
these steps succeeds. -/
def rows_then_done {σ : Type} (E : Engine σ) (h fuel : Nat) (kind : Target) : Nat → σ → Prop
  | 0, s =>
    (E.sqlite3_step s h).1 = SQLITE_DONE ∧
    extraction_succeeds E h fuel kind (E.sqlite3_step s h).2
  | k + 1, s =>
    (E.sqlite3_step s h).1 = SQLITE_ROW ∧
    extraction_succeeds E h fuel kind (E.sqlite3_step s h).2 ∧
    rows_then_done E h fuel kind k (E.sqlite3_step s h).2

/-- The number of `sqlite3_step` calls in a log. -/
def step_count (log : List Call) : Nat := log.countP Call.isStep

/-- A state of the table engine with nothing pending. -/
def idle_world : World Table := { eng := { pending := [], current := [] }, log := [] }

/-! ## Concrete inputs and the engine model of `SELECT ?` -/

/-- The columns of the concrete failing extraction: two INTEGER columns named `a`,
then a BLOB column. -/
def duplicate_then_blob : World Table :=
  { eng := { pending := [], current := [int_column "a" 1, int_column "a" 2, blob_column "b"] },
    log := [] }

/-- A current row of an INTEGER and a TEXT column followed by a column declared
`integer` in lower case. -/
def lower_case_decl : World Table :=
  { eng := { pending := [],
             current := [int_column "a" 42, text_column "b" "hello",
               { name := "c", decltype := "integer", text := none, int := 5, int64 := 5,
                 double := Double.mk 0 }] },
    log := [] }

/-- The statements `st % a; st.fetch(into);`: what `fetch` returns and the target
afterwards. -/
def statement.bind_then_fetch {σ : Type} (E : Engine σ) (fuel : Nat) (st : statement)
    (a : BindArg) (into : Target) (w : World σ) : Res Bool × Target :=
  match (st.bind E a w).1 with
  | .ok () =>
    (((st.bind E a w).2.1.fetch E fuel into (st.bind E a w).2.2).1,
     ((st.bind E a w).2.1.fetch E fuel into (st.bind E a w).2.2).2.2.1)
  | .throw e => (.throw e, into)
  | .crash => (.crash, into)
  | .timeout => (.timeout, into)

/-- The bytes a native text bind takes: the first `n` bytes at the pointer, where
the string `val` is followed by its terminator. -/
def bound_bytes (val : String) (n : Nat) : String :=
  String.mk ((val.data ++ [NUL]).take n)

/-- The values of a 32-bit `int`. -/
def is_int32 (v : Int) : Prop := -2 ^ 31 ≤ v ∧ v < 2 ^ 31

/-- The values of a 64-bit `long` or `long long`. -/
def is_int64 (v : Int) : Prop := -2 ^ 63 ≤ v ∧ v < 2 ^ 63

/-- The engine model of `SELECT ?` on cursor `h` in state `s`: a bind at position 1
is accepted, the next step reports a row, and column 0 of that row holds exactly
what was bound: read as text it gives the bytes bound, read as 32-bit int the `int`
bound, read as 64-bit int the 64-bit integer bound. -/
structure EchoesParam {σ : Type} (E : Engine σ) (h : Nat) (s : σ) : Prop where
  bind_ok : ∀ c : NativeBind, c.pos = 1 → (E.sqlite3_bind s h c).1 = 0
  step_row : ∀ c : NativeBind, c.pos = 1 →
    (E.sqlite3_step (E.sqlite3_bind s h c).2 h).1 = SQLITE_ROW
  holds_text : ∀ (val : String) (n : Nat),
    E.sqlite3_column_text (E.sqlite3_step (E.sqlite3_bind s h (.text 1 val n)).2 h).2 h 0
      = some (bound_bytes val n)
  holds_int : ∀ v : Int, is_int32 v →
    E.sqlite3_column_int (E.sqlite3_step (E.sqlite3_bind s h (.int 1 v)).2 h).2 h 0 = v
  holds_int64 : ∀ v : Int, is_int64 v →
    E.sqlite3_column_int64 (E.sqlite3_step (E.sqlite3_bind s h (.int64 1 v)).2 h).2 h 0 = v

/-- The conversion of a 64-bit integer to `int` made by `sqlite3_column_int`: the
lower 32 bits, as a signed number. -/
def low_int32 (v : Int) : Int := (v + 2 ^ 31) % 2 ^ 32 - 2 ^ 31

/-- State of the engine for `SELECT ?`: the last native bind accepted at position 1
and whether the row has been stepped to. -/
structure Param where
  bound : Option NativeBind
  stepped : Bool
  deriving DecidableEq, Repr

/-- An engine for the statement `SELECT ?`: one column holding what was bound at
position 1; being a parameter, it has no declared type.  Text is read back as the bytes bound, an integer as itself by
`sqlite3_column_int64` and as its lower 32 bits by `sqlite3_column_int`; a read of
another kind than the one bound answers as for NULL. -/
def param_engine : Engine Param where
  sqlite3_bind := fun s h c =>
    if h = 0 then (SQLITE_MISUSE, s)
    else if c.pos = 1 then (SQLITE_OK, { bound := some c, stepped := false })
    else (SQLITE_RANGE, s)
  sqlite3_step := fun s h =>
    if h = 0 then (SQLITE_MISUSE, s)
    else if s.stepped then (SQLITE_DONE, s)
    else (SQLITE_ROW, { bound := s.bound, stepped := true })
  sqlite3_reset := fun s h =>
    if h = 0 then (SQLITE_MISUSE, s) else (SQLITE_OK, { bound := s.bound, stepped := false })
  sqlite3_finalize := fun s h => (if h = 0 then SQLITE_MISUSE else SQLITE_OK, s)
  sqlite3_column_count := fun _ _ => 1
  sqlite3_column_decltype := fun _ _ _ => none
  sqlite3_column_name := fun _ _ _ => "?"
  sqlite3_column_text := fun s _ i =>
    match i, s.bound with
    | 0, some (.text _ val n) => some (bound_bytes val n)
    | _, _ => none
  sqlite3_column_int := fun s _ i =>
    match i, s.bound with
    | 0, some (.int _ v) => low_int32 v
    | 0, some (.int64 _ v) => low_int32 v
    | _, _ => 0
  sqlite3_column_int64 := fun s _ i =>
    match i, s.bound with
    | 0, some (.int _ v) => v
    | 0, some (.int64 _ v) => v
    | _, _ => 0
  sqlite3_column_double := fun s _ i =>
    match i, s.bound with
    | 0, some (.double _ d) => d
    | _, _ => Double.mk 0

/-- The statement `SELECT ?` freshly prepared on cursor 1. -/
def select_param : statement :=
  { statement_ := 1, sql_ := "SELECT ?", binder_ := { bound_ := [] },
    extractor_ := { extracted_ := [] } }

/-- The engine for `SELECT ?` with nothing bound. -/
def param_world : World Param := { eng := { bound := none, stepped := false }, log := [] }

/-- The three-byte `std::string` made of `a`, a NUL character and `b`. -/
def string_with_nul : String := String.mk ['a', NUL, 'b']

/-- A rowset of `int` over the statement on cursor 1. -/
def int_rowset : rowset := { statement_ := select_stmt, current_ := .scalar (.int 0) }

/-! ## Statement life cycle: construction, invariant, repeated finalize -/

/-- The constructor `statement::statement(database, sql)`, given what
`sqlite3_prepare` answered: the status `rc`, the handle stored in `statement_`
(`0` when none was produced) and the text of `sqlite3_errmsg`.  The binder and the
extractor start with empty vectors. -/
def statement.construct (sql : String) (rc : Int) (handle : Nat) (errmsg : String) :
    Res statement :=
  if rc ≠ 0 then .throw (.SQLiteError rc errmsg)
  else .ok { statement_ := handle, sql_ := sql, binder_ := { bound_ := [] },
             extractor_ := { extracted_ := [] } }

/-- The invariant of a `statement`: while the handle is null nothing counts as
bound. -/
def statement.wf (st : statement) : Prop :=
  st.statement_ = 0 → st.binder_.bound_ = []

instance (st : statement) : Decidable st.wf := by
  unfold statement.wf; infer_instance

/-- The engine refuses to bind on the null cursor, as `sqlite3_bind_*` does. -/
def rejects_null_bind {σ : Type} (E : Engine σ) : Prop :=
  ∀ (s : σ) (c : NativeBind), (E.sqlite3_bind s 0 c).1 ≠ 0

/-- The engine model in which every native call on the null cursor answers
`SQLITE_MISUSE`. -/
def null_cursor_misuse {σ : Type} (E : Engine σ) : Prop :=
  ∀ s : σ,
    (∀ c : NativeBind, (E.sqlite3_bind s 0 c).1 = SQLITE_MISUSE) ∧
    (E.sqlite3_step s 0).1 = SQLITE_MISUSE ∧
    (E.sqlite3_reset s 0).1 = SQLITE_MISUSE ∧
    (E.sqlite3_finalize s 0).1 = SQLITE_MISUSE

/-- The destructor `statement::~statement()`: it calls `finalize()`. -/
def statement.destroy {σ : Type} (E : Engine σ) (st : statement) (w : World σ) :
    statement × World σ :=
  st.finalize E w

/-- The member `finalize()` called `n` times in a row. -/
def statement.finalize_times {σ : Type} (E : Engine σ) :
    Nat → statement → World σ → statement × World σ
  | 0, st, w => (st, w)
  | n + 1, st, w =>
    statement.finalize_times E n (st.finalize E w).1 (st.finalize E w).2

/-- The logged call is a `sqlite3_finalize`. -/
def Call.isFinalize : Call → Bool
  | .finalize _ => true
  | _ => false

/-- The number of `sqlite3_finalize` calls in a log. -/
def finalize_count (log : List Call) : Nat := log.countP Call.isFinalize

/-- A statement on cursor 1 on which three parameters have been bound. -/
def bound_stmt : statement :=
  { statement_ := 1, sql_ := "INSERT INTO t(a,b,c) VALUES (?,?,?)",
    binder_ := { bound_ := [true, true, true] }, extractor_ := { extracted_ := [] } }

/-- A statement whose handle is null, as after `finalize()`. -/
def finalized_stmt : statement :=
  { statement_ := 0, sql_ := "SELECT a FROM t", binder_ := { bound_ := [] },
    extractor_ := { extracted_ := [] } }

/-! ## `error::SQLiteError`: the message -/

/-- The member `SQLiteError::toString(code)`: the description of a result code, with
the codes of `sqlite3.h` (`SQLITE_ERROR` = 1 up to `SQLITE_NOTADB` = 26). -/
def SQLiteError_toString (code : Int) : String :=
  if code = 1 then "SQL error or missing database"
  else if code = 2 then "Internal logic error in SQLite"
  else if code = 3 then "Access permission denied"
  else if code = 4 then "Callback routine requested an abort"
  else if code = 5 then "The database file is locked"
  else if code = 6 then "A table in the database is locked"
  else if code = 7 then "A malloc() failed"
  else if code = 8 then "Attempt to write a readonly database"
  else if code = 9 then "Operation terminated by sqlite3_interrup"
  else if code = 10 then "Some kind of disk I/O error occurred"
  else if code = 11 then "The database disk image is malformed"
  else if code = 12 then "Unknown opcode in sqlite3_file_control()"
  else if code = 13 then "Insertion failed because database is full"
  else if code = 14 then "Unable to open the database file"
  else if code = 15 then "Database lock protocol error"
  else if code = 16 then "Database is empty"
  else if code = 17 then "The database schema changed"
  else if code = 18 then "String or BLOB exceeds size limit"
  else if code = 19 then "Abort due to constraint violation"
  else if code = 20 then "Data type mismatch"
  else if code = 21 then "Library used incorrectly"
  else if code = 22 then "Uses OS features not supported on host"
  else if code = 23 then "Authorization denied"
  else if code = 24 then "Auxiliary database format error"
  else if code = 25 then "2nd parameter to sqlite3_bind out of range"
  else if code = 26 then "File opened that is not a database file"
  else "Unknown code"

/-- The member `SQLiteError::format(code, msg)`: the pattern
`SQLITE[%d]: %s (%s)` filled with the code, its description and the context
`msg`. -/
def SQLiteError_format (code : Int) (msg : String) : String :=
  "SQLITE[" ++ toString code ++ "]: " ++ SQLiteError_toString code ++ " (" ++ msg ++ ")"

/-- The context string of an exception: the `msg` an `SQLiteError` was built with,
the text of a `range_error`. -/
def Exn.context : Exn → String
  | .SQLiteError _ msg => msg
  | .bad_cast => ""
  | .range_error what => what

/-- The text `what()` of an exception; for `SQLiteError` the formatted message. -/
def Exn.what : Exn → String
  | .SQLiteError code msg => SQLiteError_format code msg
  | .bad_cast => "std::bad_cast"
  | .range_error what => what

/-! ## Sequences of scalar extractions -/

/-- The column index of a logged call when it is one of the four typed column
reads. -/
def Call.readIdx : Call → Option Nat
  | .column_text _ i => some i
  | .column_int _ i => some i
  | .column_int64 _ i => some i
  | .column_double _ i => some i
  | _ => none

/-- The native read that the scalar specialisation for the static type of `into`
issues, as the source has it: `sqlite3_column_text` for `std::string`,
`sqlite3_column_int` for `int` and for `long`, `sqlite3_column_int64` for
`long long`, `sqlite3_column_double` for `double`. -/
def native_read_of (into : value) (h idx : Nat) : Call :=
  match into with
  | .string _ => Call.column_text h idx
  | .int _ => Call.column_int h idx
  | .long _ => Call.column_int h idx
  | .longlong _ => Call.column_int64 h idx
  | .double _ => Call.column_double h idx

/-- A sequence of scalar extractions `x(t₁); x(t₂); ...` in order; the targets
after the calls are returned in the same order. -/
def extractor.call_all {σ : Type} (E : Engine σ) (h : Nat) :
    List value → extractor → World σ → extractor × List value × World σ
  | [], x, w => (x, [], w)
  | t :: rest, x, w =>
    ((extractor.call_all E h rest (x.call_scalar E h t w).1 (x.call_scalar E h t w).2.2).1,
     (x.call_scalar E h t w).2.1 ::
       (extractor.call_all E h rest (x.call_scalar E h t w).1 (x.call_scalar E h t w).2.2).2.1,
     (extractor.call_all E h rest (x.call_scalar E h t w).1 (x.call_scalar E h t w).2.2).2.2)

/-- A current row whose only column holds the 64-bit integer 4294967296: read with
`sqlite3_column_int64` it is that number, read with `sqlite3_column_int` its lower
32 bits, 0. -/
def big_integer_row : World Table :=
  { eng := { pending := [],
             current := [{ name := "n", decltype := "INTEGER", text := none, int := 0,
                           int64 := 4294967296, double := Double.mk 0 }] },
    log := [] }

/-- A column for which `sqlite3_column_text` answers the null pointer. -/
def null_text_column (name : String) : Column :=
  { name := name, decltype := "TEXT", text := none, int := 0, int64 := 0,
    double := Double.mk 0 }

/-- A rowset of `std::string` over the statement on cursor 1. -/
def string_rowset : rowset := { statement_ := select_stmt, current_ := .scalar (.string "") }

/-- The logged call is a `sqlite3_column_decltype`: the generic-row loop issues
exactly one at the start of each iteration. -/
def Call.isDecltype : Call → Bool
  | .column_decltype _ _ => true
  | _ => false

/-- The number of `sqlite3_column_decltype` calls in a log, that is the number of
iterations of the generic-row loop it records. -/
def iteration_count (log : List Call) : Nat := log.countP Call.isDecltype

/-! ## Further concrete inputs -/

/-- A current row whose only column reads as null text. -/
def null_text_row : World Table :=
  { eng := { pending := [], current := [null_text_column "a"] }, log := [] }

/-- A statement with a null handle that still carries marks in its extractor. -/
def stale_extractor_stmt : statement :=
  { statement_ := 0, sql_ := "SELECT a FROM t", binder_ := { bound_ := [] },
    extractor_ := { extracted_ := [true, true] } }

/-- A current row of three columns of recognised declared types. -/
def three_columns : World Table :=
  { eng := { pending := [],
             current := [int_column "a" 42, text_column "b" "hello",
               float_column "c" (Double.mk 7)] },
    log := [] }

/-! ## Runs of bind calls -/

/-- The native bind, with its arguments, that the specialisation of
`binder::operator()` for the argument `a` issues on the binder `b`. -/
def binder.native_call (b : binder) (a : BindArg) : NativeBind :=
  match a with
  | .cstr val => .text (b.bound_.length + 1) val (strlen val + 1)
  | .string val => .text (b.bound_.length + 1) val (val.data.length + 1)
  | .int val => .int (b.bound_.length + 1) val
  | .long val => .int64 (b.bound_.length + 1) val
  | .longlong val => .int64 (b.bound_.length + 1) val
  | .double val => .double (b.bound_.length + 1) val
  | .uuid val => .text (b.bound_.length + 1) val.str (val.str.data.length + 1)

/-- Every native bind issued in the run of the chain `b(a₁); b(a₂); ...` from the
binder `b` and the world `w` returns status 0: the bind of the first call does, in
the engine state it is issued in, and so do those of the rest of the chain run from
the state the first call leaves. -/
def binder.binds_accepted {σ : Type} (E : Engine σ) (h : Nat) :
    List BindArg → binder → World σ → Prop
  | [], _, _ => True
  | a :: rest, b, w =>
    (E.sqlite3_bind w.eng h (b.native_call a)).1 = 0 ∧
    binder.binds_accepted E h rest (b.call E h a w).2.1 (b.call E h a w).2.2

/-! # Theorems -/

/-! ## Binder: positions and failure -/

/-- The native bind that a bind call issues: the call appended to the log. -/
theorem binder_call_log {σ : Type} (E : Engine σ) (h : Nat) (b : binder) (a : BindArg)
    (w : World σ) :
    ∃ c : NativeBind, c.pos = b.bound_.length + 1 ∧
      (b.call E h a w).2.2.log = w.log ++ [Call.bind h c] ∧
      (b.call E h a w).2.2.eng = (E.sqlite3_bind w.eng h c).2 ∧
      (b.call E h a w).1 = (b.check (E.sqlite3_bind w.eng h c).1).1 ∧
      (b.call E h a w).2.1 = (b.check (E.sqlite3_bind w.eng h c).1).2 := by
  cases a <;>
    exact ⟨_, by rfl, rfl, rfl, rfl, rfl⟩

/-- A bind call is `check` applied to the status of its native bind. -/
theorem binder_call_eq_issue {σ : Type} (E : Engine σ) (h : Nat) (b : binder) (a : BindArg)
    (w : World σ) : b.call E h a w = b.issue E h (b.native_call a) w := by
  cases a <;> rfl

/-- The position of the native bind of a call is the counter plus one. -/
theorem native_call_pos (b : binder) (a : BindArg) :
    (b.native_call a).pos = b.bound_.length + 1 := by
  cases a <;> rfl

/-- A bind call whose native bind returns 0: outcome, binder and world. -/
theorem binder_call_of_accepted {σ : Type} (E : Engine σ) (h : Nat) (b : binder)
    (a : BindArg) (w : World σ) (hz : (E.sqlite3_bind w.eng h (b.native_call a)).1 = 0) :
    b.call E h a w =
      (.ok (), { bound_ := b.bound_ ++ [true] },
        { eng := (E.sqlite3_bind w.eng h (b.native_call a)).2,
          log := w.log ++ [Call.bind h (b.native_call a)] }) := by
  rw [binder_call_eq_issue]
  simp [binder.issue, binder.check, native_bind, hz]

/-- When the native binds of a run all return 0, those of a first part of it do. -/
theorem binds_accepted_of_append {σ : Type} (E : Engine σ) (h : Nat) (pre : List BindArg) :
    ∀ (post : List BindArg) (b : binder) (w : World σ),
      binder.binds_accepted E h (pre ++ post) b w → binder.binds_accepted E h pre b w := by
  induction pre with
  | nil => intro post b w _; trivial
  | cons a rest ih =>
    intro post b w hacc
    exact ⟨hacc.1, ih post _ _ hacc.2⟩

/-- The chain run one call further, when the native bind of the first call returns
0. -/
theorem binder_call_all_cons_of_accepted {σ : Type} (E : Engine σ) (h : Nat) (b : binder)
    (a : BindArg) (rest : List BindArg) (w : World σ)
    (hz : (E.sqlite3_bind w.eng h (b.native_call a)).1 = 0) :
    binder.call_all E h (a :: rest) b w
      = binder.call_all E h rest (b.call E h a w).2.1 (b.call E h a w).2.2 := by
  conv_lhs => unfold binder.call_all
  rw [binder_call_of_accepted E h b a w hz]

/-- When the native binds of a run all return 0, so do those of its second part, run
from the state the first part leaves. -/
theorem binds_accepted_after {σ : Type} (E : Engine σ) (h : Nat) (pre : List BindArg) :
    ∀ (post : List BindArg) (b : binder) (w : World σ),
      binder.binds_accepted E h (pre ++ post) b w →
      binder.binds_accepted E h post (binder.call_all E h pre b w).2.1
        (binder.call_all E h pre b w).2.2 := by
  induction pre with
  | nil => intro post b w hacc; exact hacc
  | cons a rest ih =>
    intro post b w hacc
    rw [binder_call_all_cons_of_accepted E h b a rest w hacc.1]
    exact ih post _ _ hacc.2

/-- When the native binds of a run all return 0, the chain on a binder holding `m`
marks returns normally with `m + N` marks and has logged binds at positions
`m+1, m+2, ...`. -/
theorem binder_call_all_of_accepted {σ : Type} (E : Engine σ) (h : Nat)
    (args : List BindArg) :
    ∀ (b : binder) (w : World σ), binder.binds_accepted E h args b w →
      (binder.call_all E h args b w).1 = .ok () ∧
      (binder.call_all E h args b w).2.1.bound_.length = b.bound_.length + args.length ∧
      ∃ calls : List Call,
        (binder.call_all E h args b w).2.2.log = w.log ++ calls ∧
        calls.map Call.bindPos =
          (List.range args.length).map (fun i => some (b.bound_.length + i + 1)) := by
  induction args with
  | nil => intro b w _; exact ⟨rfl, rfl, [], by simp [binder.call_all], by simp⟩
  | cons a rest ih =>
    intro b w hacc
    have hcall := binder_call_of_accepted E h b a w hacc.1
    have hstep : binder.call_all E h (a :: rest) b w
        = binder.call_all E h rest (b.call E h a w).2.1 (b.call E h a w).2.2 := by
      conv_lhs => unfold binder.call_all
      rw [hcall]
    rw [hstep]
    obtain ⟨h1, h2, calls, h3, h4⟩ := ih (b.call E h a w).2.1 (b.call E h a w).2.2 hacc.2
    rw [hcall] at h2 h3 h4 ⊢
    refine ⟨by rw [hcall] at h1; exact h1, ?_, Call.bind h (b.native_call a) :: calls, ?_, ?_⟩
    · rw [h2]; simp; omega
    · rw [h3]; simp
    · rw [List.length_cons, List.range_succ_eq_map]
      simp only [List.map_cons, List.map_map]
      rw [h4]
      simp [Call.bindPos, native_call_pos]
      intro i _
      omega

/-- C1: on a freshly constructed or just reset binder, when every native bind
issued in the run of a chain of N bind calls, of any mix of argument kinds, returns
status 0, the chain returns normally; the log grows by exactly N native binds whose
positions are 1..N in call order; and the i-th call itself, run in the state left
by the i-1 calls before it, appends exactly one native bind, at position i.  Nothing
is assumed of the binds the engine is not asked for. -/
theorem C1_bind_positions_follow_call_order {σ : Type} (E : Engine σ) (h : Nat)
    (args : List BindArg) (b : binder) (w : World σ)
    (hacc : binder.binds_accepted E h args b.reset w) :
    (binder.call_all E h args b.reset w).1 = .ok () ∧
    (∃ calls : List Call,
      (binder.call_all E h args b.reset w).2.2.log = w.log ++ calls ∧
      calls.map Call.bindPos = (List.range args.length).map (fun i => some (i + 1))) ∧
    (∀ (pre post : List BindArg) (a : BindArg), args = pre ++ a :: post →
      ∃ c : NativeBind, c.pos = pre.length + 1 ∧
        (E.sqlite3_bind (binder.call_all E h pre b.reset w).2.2.eng h c).1 = 0 ∧
        (((binder.call_all E h pre b.reset w).2.1).call E h a
            (binder.call_all E h pre b.reset w).2.2).2.2.log
          = (binder.call_all E h pre b.reset w).2.2.log ++ [Call.bind h c]) := by
  obtain ⟨h1, _, calls, h3, h4⟩ := binder_call_all_of_accepted E h args b.reset w hacc
  refine ⟨h1, ⟨calls, h3, ?_⟩, ?_⟩
  · rw [h4]; simp [binder.reset]
  · intro pre post a hsplit
    subst hsplit
    obtain ⟨_, hlen, _⟩ := binder_call_all_of_accepted E h pre b.reset w
      (binds_accepted_of_append E h pre (a :: post) b.reset w hacc)
    have hrest := binds_accepted_after E h pre (a :: post) b.reset w hacc
    refine ⟨(binder.call_all E h pre b.reset w).2.1.native_call a, ?_, hrest.1, ?_⟩
    · rw [native_call_pos, hlen]; simp [binder.reset]
    · rw [binder_call_of_accepted E h _ a _ hrest.1]

/-- C1 at concrete chains: an `int`, a `std::string`, a `double` and a C string
bound on cursor 1 of the table engine go to positions 1, 2, 3, 4; and on the engine
for `SELECT ?`, which refuses every position but 1, the chain of the single bind of
an `int` runs with status 0 and binds at position 1. -/
theorem C1_bind_positions_witness :
    (binder.call_all table_engine 1
        [.int 42, .string "hello", .double (Double.mk 7), .cstr "x"]
        (binder.mk [true, true]).reset idle_world).2.2.log
      = [Call.bind 1 (.int 1 42), Call.bind 1 (.text 2 "hello" 6),
         Call.bind 1 (.double 3 (Double.mk 7)), Call.bind 1 (.text 4 "x" 2)] ∧
    (binder.call_all table_engine 1
        [.int 42, .string "hello", .double (Double.mk 7), .cstr "x"]
        (binder.mk [true, true]).reset idle_world).1 = .ok () ∧
    (binder.call_all param_engine 1 [.int 5] (binder.mk []).reset param_world).1 = .ok () ∧
    (binder.call_all param_engine 1 [.int 5] (binder.mk []).reset param_world).2.2.log
      = [Call.bind 1 (.int 1 5)] :=
  ⟨by decide,
   (C1_bind_positions_follow_call_order table_engine 1
      [.int 42, .string "hello", .double (Double.mk 7), .cstr "x"]
      (binder.mk [true, true]) idle_world
      ⟨by decide, by decide, by decide, by decide, trivial⟩).1,
   (C1_bind_positions_follow_call_order param_engine 1 [.int 5] (binder.mk []) param_world
      ⟨by decide, trivial⟩).1,
   by decide⟩

/-- C2: a bind call issues one native bind; it throws exactly when the status of
that native bind is non-zero, and then the exception is the `SQLiteError` built from
that status; when the status is 0 it returns normally and `bound_` is one longer. -/
theorem C2_bind_throws_iff_status_nonzero {σ : Type} (E : Engine σ) (h : Nat) (b : binder)
    (a : BindArg) (w : World σ) :
    ∃ c : NativeBind,
      (b.call E h a w).2.2.log = w.log ++ [Call.bind h c] ∧
      ((b.call E h a w).1.isThrow = true ↔ (E.sqlite3_bind w.eng h c).1 ≠ 0) ∧
      ((E.sqlite3_bind w.eng h c).1 ≠ 0 →
        (b.call E h a w).1 = .throw (.SQLiteError (E.sqlite3_bind w.eng h c).1 "")) ∧
      ((E.sqlite3_bind w.eng h c).1 = 0 →
        (b.call E h a w).1 = .ok () ∧
        (b.call E h a w).2.1.bound_.length = b.bound_.length + 1) := by
  obtain ⟨c, _, hlog, _, hres, hb⟩ := binder_call_log E h b a w
  refine ⟨c, hlog, ?_, ?_, ?_⟩
  · rw [hres]
    by_cases hz : (E.sqlite3_bind w.eng h c).1 = 0 <;> simp [binder.check, hz, Res.isThrow]
  · intro hz
    rw [hres]; simp [binder.check, hz]
  · intro hz
    rw [hres, hb]; simp [binder.check, hz]

/-- C2 at concrete calls: on the null cursor the table engine answers
`SQLITE_MISUSE` and the bind throws `SQLiteError(21)` leaving `bound_` alone; on
cursor 1 it answers 0 and `bound_` grows from 2 to 3. -/
theorem C2_bind_status_witness :
    ((binder.mk [true, true]).call table_engine 0 (.long 5) idle_world).1
      = .throw (.SQLiteError 21 "") ∧
    ((binder.mk [true, true]).call table_engine 1 (.long 5) idle_world).1 = .ok () ∧
    ((binder.mk [true, true]).call table_engine 1 (.long 5) idle_world).2.1.bound_.length = 3 := by
  decide

/-! ## Row: one cell per name -/

/-- Lookup of the key at the head of an association list. -/
theorem lookup_cons_self (key : String) (x : value) (l : List (String × value)) :
    List.lookup key ((key, x) :: l) = some x := by
  simp [List.lookup_cons]

/-- Lookup skips a head with another key. -/
theorem lookup_cons_other (key k : String) (x : value) (l : List (String × value))
    (hne : key ≠ k) : List.lookup key ((k, x) :: l) = List.lookup key l := by
  have hb : (key == k) = false := by simp [hne]
  simp [List.lookup_cons, hb]

/-- After `columns_[key] = v` the key maps to `v`. -/
theorem lookup_map_assign_self (key : String) (v : value) (l : List (String × value)) :
    (map_assign key v l).lookup key = some v := by
  induction l with
  | nil => simp [map_assign]
  | cons p rest ih =>
    obtain ⟨k, x⟩ := p
    by_cases hk : k = key
    · subst hk
      simp only [map_assign, if_true]
      exact lookup_cons_self k v rest
    · have hk2 : key ≠ k := fun e => hk e.symm
      simp only [map_assign, hk, if_false]
      rw [lookup_cons_other key k x _ hk2, ih]

/-- The assignment `columns_[key] = v` leaves every other key as it was. -/
theorem lookup_map_assign_other (key other : String) (v : value) (hne : other ≠ key)
    (l : List (String × value)) :
    (map_assign key v l).lookup other = l.lookup other := by
  induction l with
  | nil =>
    simp only [map_assign]
    rw [lookup_cons_other other key v [] hne]
  | cons p rest ih =>
    obtain ⟨k, x⟩ := p
    by_cases hk : k = key
    · subst hk
      simp only [map_assign, if_true]
      rw [lookup_cons_other other k v rest hne, lookup_cons_other other k x rest hne]
    · simp only [map_assign, hk, if_false]
      by_cases ho : other = k
      · subst ho
        rw [lookup_cons_self, lookup_cons_self]
      · rw [lookup_cons_other other k x _ ho, lookup_cons_other other k x _ ho, ih]

/-- The keys after `columns_[key] = v`: unchanged when `key` was present, with `key`
appended otherwise. -/
theorem keys_map_assign (key : String) (v : value) (l : List (String × value)) :
    (map_assign key v l).map Prod.fst =
      if key ∈ l.map Prod.fst then l.map Prod.fst else l.map Prod.fst ++ [key] := by
  induction l with
  | nil => simp [map_assign]
  | cons p rest ih =>
    obtain ⟨k, x⟩ := p
    by_cases hk : k = key
    · simp [map_assign, hk]
    · have hk2 : ¬ key = k := fun e => hk e.symm
      by_cases hm : key ∈ rest.map Prod.fst
      · simp only [map_assign, hk, if_false, List.map_cons, ih, hm, if_true, List.mem_cons,
          or_true]
      · simp only [map_assign, hk, if_false, List.map_cons, ih, hm, List.mem_cons, hk2,
          or_self, List.cons_append]

/-- A key is absent from the association list exactly when its lookup finds
nothing. -/
theorem lookup_eq_none_iff_not_mem (key : String) (l : List (String × value)) :
    l.lookup key = none ↔ key ∉ l.map Prod.fst := by
  induction l with
  | nil => simp
  | cons p rest ih =>
    obtain ⟨k, x⟩ := p
    by_cases hk : key = k
    · subst hk
      rw [lookup_cons_self]
      simp
    · rw [lookup_cons_other key k x rest hk, ih]
      simp [hk]

/-- Adding under a name keeps the stored names pairwise distinct. -/
theorem names_add_nodup (r : row) (key : String) (v : value) (hnd : r.names.Nodup) :
    (r.add key v).names.Nodup := by
  unfold row.names row.add
  simp only [keys_map_assign]
  unfold row.names at hnd
  by_cases hm : key ∈ r.columns_.map Prod.fst
  · simp only [hm, if_true]; exact hnd
  · simp only [hm, if_false]
    rw [List.nodup_append]
    refine ⟨hnd, List.nodup_singleton key, ?_⟩
    intro a ha hb
    simp at hb
    subst hb
    exact hm ha

/-- The stored names after an add, as a set. -/
theorem names_add_toFinset (r : row) (key : String) (v : value) :
    (r.add key v).names.toFinset = insert key r.names.toFinset := by
  unfold row.names row.add
  simp only [keys_map_assign]
  by_cases hm : key ∈ r.columns_.map Prod.fst
  · simp only [hm, if_true]
    rw [Finset.insert_eq_of_mem (List.mem_toFinset.mpr hm)]
  · simp only [hm, if_false]
    ext a
    simp [or_comm]

/-- A sequence of adds keeps the names pairwise distinct and stores exactly the old
names and the names used. -/
theorem names_add_all (adds : List (String × value)) :
    ∀ r : row, r.names.Nodup →
      (row.add_all adds r).names.Nodup ∧
      (row.add_all adds r).names.toFinset = r.names.toFinset ∪ (adds.map Prod.fst).toFinset := by
  induction adds with
  | nil => intro r hnd; simp [row.add_all, hnd]
  | cons p rest ih =>
    intro r hnd
    have hstep : row.add_all (p :: rest) r = row.add_all rest (r.add p.1 p.2) := rfl
    rw [hstep]
    obtain ⟨h1, h2⟩ := ih (r.add p.1 p.2) (names_add_nodup r p.1 p.2 hnd)
    refine ⟨h1, ?_⟩
    rw [h2, names_add_toFinset]
    ext a
    simp [or_assoc, or_comm, or_left_comm]

/-- Adds under other names do not touch the cell of a name. -/
theorem find_add_all_of_not_mem (name : String) (adds : List (String × value)) :
    ∀ r : row, name ∉ adds.map Prod.fst → (row.add_all adds r).find name = r.find name := by
  induction adds with
  | nil => intro r _; rfl
  | cons p rest ih =>
    intro r hnot
    have hstep : row.add_all (p :: rest) r = row.add_all rest (r.add p.1 p.2) := rfl
    simp only [List.map_cons, List.mem_cons, not_or] at hnot
    rw [hstep, ih _ hnot.2]
    exact lookup_map_assign_other p.1 name p.2 hnot.1 r.columns_

/-- A sequence of adds run in two parts. -/
theorem add_all_append (xs ys : List (String × value)) (r : row) :
    row.add_all (xs ++ ys) r = row.add_all ys (row.add_all xs r) := by
  simp [row.add_all, List.foldl_append]

/-- The size of a row built from the empty row is the number of distinct names
used. -/
theorem size_add_all_empty (adds : List (String × value)) :
    (row.add_all adds row.empty).size = (adds.map Prod.fst).dedup.length := by
  obtain ⟨h1, h2⟩ := names_add_all adds row.empty (by simp [row.names, row.empty])
  have hs : (row.add_all adds row.empty).size = (row.add_all adds row.empty).names.length := by
    simp [row.size, row.names]
  rw [hs, ← List.toFinset_card_of_nodup h1, h2, ← List.card_toFinset]
  simp [row.names, row.empty]

/-- The value found under a name after a sequence of adds is the last one added
under it. -/
theorem find_add_all_last (pre post : List (String × value)) (name : String) (v : value)
    (r : row) (hlast : name ∉ post.map Prod.fst) :
    (row.add_all (pre ++ (name, v) :: post) r).find name = some v := by
  rw [add_all_append]
  have hstep : row.add_all ((name, v) :: post) (row.add_all pre r)
      = row.add_all post ((row.add_all pre r).add name v) := rfl
  rw [hstep, find_add_all_of_not_mem name post _ hlast]
  exact lookup_map_assign_self name v _

/-- C3: for every sequence of `row::add` calls starting from an empty row, `size()`
is the number of distinct names used; for every name used, `get<T>` at the type of
the last value added under it returns that value; and adding under a name already
present leaves `size()` unchanged, makes the name map to the new value and leaves
the cell of every other name as it was. -/
theorem C3_row_one_cell_per_name (adds : List (String × value)) :
    (row.add_all adds row.empty).size = (adds.map Prod.fst).dedup.length ∧
    (∀ (pre post : List (String × value)) (name : String) (v : value),
      adds = pre ++ (name, v) :: post → name ∉ post.map Prod.fst →
      (row.add_all adds row.empty).get v.type name = .ok v) ∧
    (∀ (name : String) (v : value), name ∈ (row.add_all adds row.empty).names →
      ((row.add_all adds row.empty).add name v).size = (row.add_all adds row.empty).size ∧
      ((row.add_all adds row.empty).add name v).find name = some v ∧
      ∀ other : String, other ≠ name →
        ((row.add_all adds row.empty).add name v).find other
          = (row.add_all adds row.empty).find other) := by
  refine ⟨size_add_all_empty adds, ?_, ?_⟩
  · intro pre post name v hsplit hlast
    subst hsplit
    simp [row.get, find_add_all_last pre post name v row.empty hlast, value.get]
  · intro name v hmem
    refine ⟨?_, lookup_map_assign_self name v _, fun other hne =>
      lookup_map_assign_other name other v hne _⟩
    have hk := keys_map_assign name v (row.add_all adds row.empty).columns_
    unfold row.names at hmem
    simp only [hmem, if_true] at hk
    have := congrArg List.length hk
    simpa [row.size, row.add] using this

/-- C3 on a concrete sequence: `a`, `b`, then `a` again with a value of another
type gives two cells, `a` holding the later value. -/
theorem C3_row_add_witness :
    (row.add_all [("a", .int 1), ("b", .string "x"), ("a", .double (Double.mk 9))]
        row.empty).size = 2 ∧
    (row.add_all [("a", .int 1), ("b", .string "x"), ("a", .double (Double.mk 9))]
        row.empty).get .double "a" = .ok (.double (Double.mk 9)) ∧
    (row.add_all [("a", .int 1), ("b", .string "x"), ("a", .double (Double.mk 9))]
        row.empty).get .string "b" = .ok (.string "x") := by
  decide

/-- C4: `row::get<T>(name)` throws `range_error` exactly when `name` is absent; when
`name` is present with a cell of another type it throws `bad_cast`; when the cell
has type `T` it returns the stored value. -/
theorem C4_row_get_outcomes (r : row) (name : String) (T : CType) :
    (r.get T name = .throw (.range_error "nonexistent index requested") ↔ name ∉ r.names) ∧
    (∀ v : value, r.find name = some v → v.type ≠ T → r.get T name = .throw .bad_cast) ∧
    (∀ v : value, r.find name = some v → v.type = T → r.get T name = .ok v) ∧
    (name ∈ r.names → ∃ v : value, r.find name = some v) := by
  refine ⟨?_, ?_, ?_, ?_⟩
  · rw [← show r.find name = none ↔ name ∉ r.names from
      lookup_eq_none_iff_not_mem name r.columns_]
    cases hf : r.find name with
    | none => simp [row.get, hf]
    | some v =>
      by_cases ht : v.type = T <;> simp [row.get, hf, value.get, ht]
  · intro v hf ht
    simp [row.get, hf, value.get, ht]
  · intro v hf ht
    simp [row.get, hf, value.get, ht]
  · intro hmem
    cases hf : r.find name with
    | none => exact absurd hmem ((lookup_eq_none_iff_not_mem name r.columns_).mp hf)
    | some v => exact ⟨v, rfl⟩

/-- C4 on a concrete row: a missing name, a wrong type and the right type. -/
theorem C4_row_get_witness :
    (row.mk [("a", .int 42), ("b", .string "hello")]).get .int "c"
      = .throw (.range_error "nonexistent index requested") ∧
    (row.mk [("a", .int 42), ("b", .string "hello")]).get .long "a" = .throw .bad_cast ∧
    (row.mk [("a", .int 42), ("b", .string "hello")]).get .int "a" = .ok (.int 42) := by
  decide

/-! ## Extractor: the generic-row loop -/

/-- No read at all. -/
theorem reads_after_refl {σ : Type} (w : World σ) : w.reads_after w :=
  ⟨rfl, [], by simp, by simp⟩

/-- Reads after reads. -/
theorem reads_after_trans {σ : Type} (w2 w1 w : World σ) (h21 : w2.reads_after w1)
    (h10 : w1.reads_after w) : w2.reads_after w := by
  obtain ⟨e2, c2, l2, n2⟩ := h21
  obtain ⟨e1, c1, l1, n1⟩ := h10
  refine ⟨by rw [e2, e1], c1 ++ c2, by rw [l2, l1, List.append_assoc], ?_⟩
  intro c hc
  rcases List.mem_append.mp hc with hc | hc
  · exact n1 c hc
  · exact n2 c hc

/-- Logging a call that is not a step is a read. -/
theorem reads_after_note {σ : Type} (w : World σ) (c : Call) (hc : c.isStep = false) :
    (w.note c).reads_after w :=
  ⟨rfl, [c], rfl, by simpa using hc⟩

/-- One pass of the loop body on a column of recognised declared type: the counter
advances by one, the decoded cell is added under the column name, the engine state
is untouched and the log only grows. -/
theorem row_loop_step {σ : Type} (E : Engine σ) (h : Nat) (cnt : Int) (fuel : Nat)
    (x : extractor) (into : row) (w : World σ)
    (hmore : to_size_t cnt > x.extracted_.length)
    (hrec : recognised (E.sqlite3_column_decltype w.eng h x.extracted_.length)) :
    ∃ w1 : World σ, w1.reads_after w ∧
      extractor.row_loop E h cnt (fuel + 1) x into w =
        extractor.row_loop E h cnt fuel { extracted_ := x.extracted_ ++ [true] }
          (into.add (E.sqlite3_column_name w.eng h x.extracted_.length)
            (decoded_cell E w.eng h x.extracted_.length)) w1 := by
  have hnt : ¬ (some "TEXT" = (none : Option String)) := by decide
  have hnf : ¬ (some "FLOAT" = (none : Option String)) := by decide
  have hni : ¬ (some "INTEGER" = (none : Option String)) := by decide
  have hft : ¬ (some "FLOAT" = some "TEXT") := by decide
  have hti : ¬ (some "INTEGER" = some "TEXT") := by decide
  have hfi : ¬ (some "INTEGER" = some "FLOAT") := by decide
  rcases hrec with ht | hf | hi
  · refine ⟨((w.note (Call.column_decltype h x.extracted_.length)).note
        (Call.column_name h x.extracted_.length)).note (Call.column_text h x.extracted_.length),
      ⟨rfl, [Call.column_decltype h x.extracted_.length, Call.column_name h x.extracted_.length,
        Call.column_text h x.extracted_.length], by simp [World.note], by simp [Call.isStep]⟩, ?_⟩
    simp only [extractor.row_loop, hmore, if_true, World.note, ht, hnt, if_false,
      extractor.call_string, decoded_cell]
  · refine ⟨((w.note (Call.column_decltype h x.extracted_.length)).note
        (Call.column_name h x.extracted_.length)).note
          (Call.column_double h x.extracted_.length),
      ⟨rfl, [Call.column_decltype h x.extracted_.length,
        Call.column_name h x.extracted_.length,
        Call.column_double h x.extracted_.length], by simp [World.note],
        by simp [Call.isStep]⟩, ?_⟩
    simp only [extractor.row_loop, hmore, if_true, World.note, hf, hnf, hft, if_false,
      extractor.call_double, decoded_cell]
  · refine ⟨((w.note (Call.column_decltype h x.extracted_.length)).note
        (Call.column_name h x.extracted_.length)).note (Call.column_int h x.extracted_.length),
      ⟨rfl, [Call.column_decltype h x.extracted_.length,
        Call.column_name h x.extracted_.length,
        Call.column_int h x.extracted_.length], by simp [World.note],
        by simp [Call.isStep]⟩, ?_⟩
    simp only [extractor.row_loop, hmore, if_true, World.note, hi, hni, hti, hfi, if_false,
      extractor.call_int, decoded_cell]

/-- The loop over `j` columns of recognised declared type: with `j` more units of
budget than what is left afterwards, it arrives at the counter advanced by `j` and
the row with the `j` decoded cells added in column order. -/
theorem row_loop_advance {σ : Type} (E : Engine σ) (h : Nat) (cnt : Int) (fuel : Nat) (j : Nat) :
    ∀ (x : extractor) (into : row) (w : World σ),
      x.extracted_.length + j ≤ to_size_t cnt →
      (∀ i, i < j → recognised (E.sqlite3_column_decltype w.eng h (x.extracted_.length + i))) →
      ∃ w1 : World σ, w1.reads_after w ∧
        extractor.row_loop E h cnt (fuel + j) x into w =
          extractor.row_loop E h cnt fuel { extracted_ := x.extracted_ ++ List.replicate j true }
            (row.add_all (decoded_cells E w.eng h x.extracted_.length j) into) w1 := by
  induction j with
  | zero =>
    intro x into w _ _
    exact ⟨w, reads_after_refl w, by simp [decoded_cells, row.add_all]⟩
  | succ j ih =>
    intro x into w hle hrec
    obtain ⟨w1, hr1, hstep⟩ :=
      row_loop_step E h cnt (fuel + j) x into w (by omega) (by simpa using hrec 0 (by omega))
    have he1 : w1.eng = w.eng := hr1.1
    have hlen : ({ extracted_ := x.extracted_ ++ [true] } : extractor).extracted_.length
        = x.extracted_.length + 1 := by simp
    obtain ⟨w2, hr2, hrest⟩ :=
      ih { extracted_ := x.extracted_ ++ [true] }
        (into.add (E.sqlite3_column_name w.eng h x.extracted_.length)
          (decoded_cell E w.eng h x.extracted_.length)) w1
        (by rw [hlen]; omega)
        (by
          intro i hi
          rw [hlen, he1]
          have := hrec (i + 1) (by omega)
          rwa [show x.extracted_.length + (i + 1) = x.extracted_.length + 1 + i by omega] at this)
    refine ⟨w2, reads_after_trans w2 w1 w hr2 hr1, ?_⟩
    rw [show fuel + (j + 1) = fuel + j + 1 by omega, hstep, hrest, hlen, he1]
    simp only [List.append_assoc, List.singleton_append, List.replicate_succ, decoded_cells,
      row.add_all, List.foldl_cons]

/-- The loop ends at once, whatever the budget, when the count does not exceed the
counter. -/
theorem row_loop_done {σ : Type} (E : Engine σ) (h : Nat) (cnt : Int) (fuel : Nat)
    (x : extractor) (into : row) (w : World σ) (hle : to_size_t cnt ≤ x.extracted_.length) :
    extractor.row_loop E h cnt fuel x into w = (.ok (), x, into, w) := by
  have hn : ¬ to_size_t cnt > x.extracted_.length := by omega
  cases fuel <;> simp [extractor.row_loop, hn]

/-- The loop body on a column whose declared type is a string that is not
recognised throws the unsupported-conversion error, with the counter and the row as
they were. -/
theorem row_loop_unrecognised {σ : Type} (E : Engine σ) (h : Nat) (cnt : Int) (fuel : Nat)
    (x : extractor) (into : row) (w : World σ)
    (hmore : to_size_t cnt > x.extracted_.length)
    (hstr : E.sqlite3_column_decltype w.eng h x.extracted_.length ≠ none)
    (hrec : ¬ recognised (E.sqlite3_column_decltype w.eng h x.extracted_.length)) :
    extractor.row_loop E h cnt (fuel + 1) x into w =
      (.throw (.SQLiteError SQLITE_ERROR "Unsuported conversion"), x, into,
        (w.note (Call.column_decltype h x.extracted_.length)).note
          (Call.column_name h x.extracted_.length)) := by
  unfold recognised at hrec
  simp only [not_or] at hrec
  simp only [extractor.row_loop, hmore, if_true, World.note, hstr, hrec.1, hrec.2.1,
    hrec.2.2, if_false]

/-- The loop body on a column whose declared type is the null pointer crashes in
`strcmp`, after the declared type and the name have been read, with the counter and
the row as they were. -/
theorem row_loop_null_decltype {σ : Type} (E : Engine σ) (h : Nat) (cnt : Int) (fuel : Nat)
    (x : extractor) (into : row) (w : World σ)
    (hmore : to_size_t cnt > x.extracted_.length)
    (hnull : E.sqlite3_column_decltype w.eng h x.extracted_.length = none) :
    extractor.row_loop E h cnt (fuel + 1) x into w =
      (.crash, x, into,
        (w.note (Call.column_decltype h x.extracted_.length)).note
          (Call.column_name h x.extracted_.length)) := by
  simp only [extractor.row_loop, hmore, if_true, World.note, hnull]

/-- A non-negative column count below 2^64 is itself as a `std::size_t`. -/
theorem to_size_t_natCast (n : Nat) (hn : n < 2 ^ 64) : to_size_t (n : Int) = n := by
  unfold to_size_t
  have h1 : ((n : Int) % 2 ^ 64) = (n : Int) := by
    apply Int.emod_eq_of_lt <;> omega
  rw [h1]; simp

/-- Generic-row extraction over columns that all have a recognised declared type:
from counter `e` with `n` columns reported, and a budget of at least `n - e`, it
returns normally with the counter at `n` and the cells of the columns `e..n-1` added
to the row in column order. -/
theorem call_row_recognised {σ : Type} (E : Engine σ) (h fuel n j : Nat) (x : extractor)
    (into : row) (w : World σ)
    (hcnt : E.sqlite3_column_count w.eng h = (n : Int)) (hn : n < 2 ^ 64)
    (hj : x.extracted_.length + j = n) (hfuel : j ≤ fuel)
    (hrec : ∀ i, i < j → recognised (E.sqlite3_column_decltype w.eng h (x.extracted_.length + i))) :
    ∃ w1 : World σ, w1.reads_after w ∧
      x.call_row E h fuel into w =
        (.ok (), { extracted_ := x.extracted_ ++ List.replicate j true },
          row.add_all (decoded_cells E w.eng h x.extracted_.length j) into, w1) := by
  obtain ⟨f, rfl⟩ : ∃ f, fuel = f + j := ⟨fuel - j, by omega⟩
  have hsz : to_size_t (E.sqlite3_column_count w.eng h) = n := by
    rw [hcnt]; exact to_size_t_natCast n hn
  obtain ⟨w1, hr1, hrun⟩ :=
    row_loop_advance E h (E.sqlite3_column_count w.eng h) f j x into
      (w.note (Call.column_count h)) (by rw [hsz]; omega) hrec
  refine ⟨w1, reads_after_trans w1 _ w hr1 (reads_after_note w _ rfl), ?_⟩
  unfold extractor.call_row
  rw [hrun, row_loop_done]
  · rfl
  · rw [hsz]; simp; omega

/-- Generic-row extraction that meets an unrecognised declared type at column
`e + j` after `j` recognised ones: with a budget above `j` it throws the
unsupported-conversion error, the counter at `e + j` and the row holding the cells
of the columns `e..e+j-1` added in column order. -/
theorem call_row_unrecognised {σ : Type} (E : Engine σ) (h fuel j : Nat) (x : extractor)
    (into : row) (w : World σ)
    (hcnt : x.extracted_.length + j < to_size_t (E.sqlite3_column_count w.eng h))
    (hfuel : j < fuel)
    (hrec : ∀ i, i < j → recognised (E.sqlite3_column_decltype w.eng h (x.extracted_.length + i)))
    (hstr : E.sqlite3_column_decltype w.eng h (x.extracted_.length + j) ≠ none)
    (hbad : ¬ recognised (E.sqlite3_column_decltype w.eng h (x.extracted_.length + j))) :
    ∃ w1 : World σ, w1.reads_after w ∧
      x.call_row E h fuel into w =
        (.throw (.SQLiteError SQLITE_ERROR "Unsuported conversion"),
          { extracted_ := x.extracted_ ++ List.replicate j true },
          row.add_all (decoded_cells E w.eng h x.extracted_.length j) into, w1) := by
  obtain ⟨f, rfl⟩ : ∃ f, fuel = (f + 1) + j := ⟨fuel - j - 1, by omega⟩
  obtain ⟨w1, hr1, hrun⟩ :=
    row_loop_advance E h (E.sqlite3_column_count w.eng h) (f + 1) j x into
      (w.note (Call.column_count h)) (by omega) hrec
  have he : w1.eng = w.eng := hr1.1
  have hlen : ({ extracted_ := x.extracted_ ++ List.replicate j true } : extractor).extracted_.length
      = x.extracted_.length + j := by simp
  refine ⟨(w1.note (Call.column_decltype h (x.extracted_.length + j))).note
      (Call.column_name h (x.extracted_.length + j)),
    reads_after_trans _ _ w (reads_after_note _ _ rfl)
      (reads_after_trans _ _ w (reads_after_note _ _ rfl)
        (reads_after_trans w1 _ w hr1 (reads_after_note w _ rfl))), ?_⟩
  unfold extractor.call_row
  rw [hrun, row_loop_unrecognised]
  · rw [hlen]; rfl
  · rw [hlen]; omega
  · rw [hlen, he]; exact hstr
  · rw [hlen, he]; exact hbad

/-- The names of the decoded cells are the engine-reported column names, in column
order. -/
theorem decoded_cells_names {σ : Type} (E : Engine σ) (s : σ) (h : Nat) (n : Nat) :
    ∀ start, (decoded_cells E s h start n).map Prod.fst =
      (List.range' start n).map (E.sqlite3_column_name s h) := by
  induction n with
  | zero => intro start; simp [decoded_cells]
  | succ n ih => intro start; simp [decoded_cells, ih, List.range'_succ]

/-- The decoded cells split at a column. -/
theorem decoded_cells_split {σ : Type} (E : Engine σ) (s : σ) (h : Nat) (k : Nat) :
    ∀ start n, k < n →
      decoded_cells E s h start n =
        decoded_cells E s h start k ++
          (E.sqlite3_column_name s h (start + k), decoded_cell E s h (start + k)) ::
            decoded_cells E s h (start + k + 1) (n - k - 1) := by
  induction k with
  | zero =>
    intro start n hn
    obtain ⟨m, rfl⟩ : ∃ m, n = m + 1 := ⟨n - 1, by omega⟩
    simp [decoded_cells]
  | succ k ih =>
    intro start n hn
    obtain ⟨m, rfl⟩ : ∃ m, n = m + 1 := ⟨n - 1, by omega⟩
    have := ih (start + 1) m (by omega)
    simp only [decoded_cells, List.cons_append]
    rw [this]
    rw [show start + 1 + k = start + (k + 1) by omega, show m + 1 - (k + 1) - 1 = m - k - 1 by omega]

/-- The declared type decides the type of the decoded cell. -/
theorem decoded_cell_type {σ : Type} (E : Engine σ) (s : σ) (h i : Nat) :
    (decoded_cell E s h i).type = ctype_of_decl (E.sqlite3_column_decltype s h i) := by
  unfold decoded_cell ctype_of_decl
  by_cases ht : E.sqlite3_column_decltype s h i = some "TEXT"
  · simp [ht, value.type]
  · by_cases hf : E.sqlite3_column_decltype s h i = some "FLOAT"
    · simp [ht, hf, value.type]
    · simp [ht, hf, value.type]

/-- Among the columns `i..n-1` there is a last one carrying the name of column `i`. -/
theorem last_column_with_name (f : Nat → String) (n : Nat) :
    ∀ i, i < n → ∃ k, i ≤ k ∧ k < n ∧ f k = f i ∧ ∀ m, k < m → m < n → f m ≠ f i := by
  induction n with
  | zero => intro i hi; omega
  | succ n ih =>
    intro i hi
    by_cases hlast : f n = f i
    · exact ⟨n, by omega, by omega, hlast, fun m h1 h2 => by omega⟩
    · have hin : i < n := by
        rcases Nat.lt_succ_iff_lt_or_eq.mp hi with h1 | h1
        · exact h1
        · subst h1; exact absurd rfl hlast
      obtain ⟨k, hk1, hk2, hk3, hk4⟩ := ih i hin
      refine ⟨k, hk1, by omega, hk3, ?_⟩
      intro m hm1 hm2
      rcases Nat.lt_succ_iff_lt_or_eq.mp hm2 with h1 | h1
      · exact hk4 m hm1 h1
      · subst h1; exact hlast

/-- The typed get of a row follows from the cell found under the name. -/
theorem row_get_of_find (r : row) (name : String) (v : value) (hf : r.find name = some v) :
    r.get v.type name = .ok v ∧ ∀ T, T ≠ v.type → r.get T name = .throw .bad_cast := by
  refine ⟨by simp [row.get, hf, value.get], ?_⟩
  intro T hT
  have : ¬ v.type = T := fun e => hT e.symm
  simp [row.get, hf, value.get, this]

/-- The row built from the cells of the columns `0..n-1`: under the name of column
`i` it holds the cell of the last column carrying that name. -/
theorem find_decoded_cells {σ : Type} (E : Engine σ) (s : σ) (h n : Nat) (into : row)
    (i : Nat) (hi : i < n) :
    ∃ k, i ≤ k ∧ k < n ∧ E.sqlite3_column_name s h k = E.sqlite3_column_name s h i ∧
      (∀ m, k < m → m < n → E.sqlite3_column_name s h m ≠ E.sqlite3_column_name s h i) ∧
      (row.add_all (decoded_cells E s h 0 n) into).find (E.sqlite3_column_name s h i)
        = some (decoded_cell E s h k) := by
  obtain ⟨k, hk1, hk2, hk3, hk4⟩ := last_column_with_name (E.sqlite3_column_name s h) n i hi
  refine ⟨k, hk1, hk2, hk3, hk4, ?_⟩
  have hsplit := decoded_cells_split E s h k 0 n hk2
  simp only [Nat.zero_add] at hsplit
  rw [hsplit, ← hk3]
  apply find_add_all_last
  rw [decoded_cells_names]
  intro hmem
  simp only [List.mem_map, List.mem_range'_1] at hmem
  obtain ⟨m, ⟨hm1, hm2⟩, hm3⟩ := hmem
  exact hk4 m (by omega) (by omega) (by rw [hm3, hk3])

/-! ## Statement: fetch -/

/-- What `fetch` does when the step reports `SQLITE_ROW` or `SQLITE_DONE`: it runs
the extractor, cleared, on the target in the engine state left by the step, and
returns whether the status was `SQLITE_ROW`. -/
theorem fetch_of_step {σ : Type} (E : Engine σ) (fuel : Nat) (st : statement) (into : Target)
    (w : World σ) (rc : Int) (s1 : σ)
    (hstep : E.sqlite3_step w.eng st.statement_ = (rc, s1))
    (hrc : rc = SQLITE_ROW ∨ rc = SQLITE_DONE) :
    st.fetch E fuel into w =
      (((extractor.mk []).call E st.statement_ fuel into
          { eng := s1, log := w.log ++ [Call.step st.statement_] }).1.returning
            (decide (rc = SQLITE_ROW)),
       { st with extractor_ := ((extractor.mk []).call E st.statement_ fuel into
          { eng := s1, log := w.log ++ [Call.step st.statement_] }).2.1 },
       ((extractor.mk []).call E st.statement_ fuel into
          { eng := s1, log := w.log ++ [Call.step st.statement_] }).2.2.1,
       ((extractor.mk []).call E st.statement_ fuel into
          { eng := s1, log := w.log ++ [Call.step st.statement_] }).2.2.2) := by
  have hno : ¬ (rc ≠ SQLITE_ROW ∧ rc ≠ SQLITE_DONE) := by
    rcases hrc with h1 | h1 <;> simp [h1]
  simp only [statement.fetch, native_step, hstep, hno, if_false, extractor.reset]

/-- What `fetch` does when the step reports any other status: it throws the
`SQLiteError` of that status and touches neither the statement nor the target. -/
theorem fetch_of_step_error {σ : Type} (E : Engine σ) (fuel : Nat) (st : statement)
    (into : Target) (w : World σ) (rc : Int) (s1 : σ)
    (hstep : E.sqlite3_step w.eng st.statement_ = (rc, s1))
    (hrc : rc ≠ SQLITE_ROW ∧ rc ≠ SQLITE_DONE) :
    st.fetch E fuel into w =
      (.throw (.SQLiteError rc ""), st, into,
        { eng := s1, log := w.log ++ [Call.step st.statement_] }) := by
  have hyes : (rc ≠ SQLITE_ROW ∧ rc ≠ SQLITE_DONE) = True := eq_true hrc
  simp only [statement.fetch, native_step, hstep, hyes, if_true]

/-- Pairwise distinct column names: two columns with the same name are the same
column. -/
theorem column_eq_of_nodup (f : Nat → String) (n : Nat)
    (hnd : ((List.range n).map f).Nodup) (i k : Nat) (hi : i < n) (hk : k < n)
    (he : f k = f i) : k = i :=
  (List.nodup_map_iff_inj_on (List.nodup_range n)).mp hnd k (List.mem_range.mpr hk) i
    (List.mem_range.mpr hi) he

/-- The size of the row built from the empty row and the cells of the columns
`0..n-1` is the number of distinct column names. -/
theorem size_decoded_cells {σ : Type} (E : Engine σ) (s : σ) (h n : Nat) :
    (row.add_all (decoded_cells E s h 0 n) row.empty).size =
      ((List.range n).map (E.sqlite3_column_name s h)).dedup.length := by
  rw [size_add_all_empty, decoded_cells_names, List.range_eq_range']

/-- C5 (amended): when the step reports a row whose `n` columns all have a declared
type among TEXT, INTEGER, FLOAT, `fetch` into an empty generic row returns true;
the row's `size()` is the number of distinct engine-reported column names (the
column count `n` when the names are pairwise distinct); every engine-reported name
is retrievable and holds the decoding of the last column `k` carrying that name,
stored as string for TEXT, double for FLOAT and int for INTEGER, so that `get<T>`
returns it at that type and throws `bad_cast` at any other. -/
theorem C5_fetch_row_of_recognised_columns {σ : Type} (E : Engine σ) (st : statement)
    (w : World σ) (fuel n : Nat) (s1 : σ)
    (hstep : E.sqlite3_step w.eng st.statement_ = (SQLITE_ROW, s1))
    (hcnt : E.sqlite3_column_count s1 st.statement_ = (n : Int)) (hn : n < 2 ^ 31)
    (hrec : ∀ i, i < n → recognised (E.sqlite3_column_decltype s1 st.statement_ i))
    (hfuel : n ≤ fuel) :
    (st.fetch E fuel (.row row.empty) w).1 = .ok true ∧
    ∃ r : row, (st.fetch E fuel (.row row.empty) w).2.2.1 = .row r ∧
      r.size = ((List.range n).map (E.sqlite3_column_name s1 st.statement_)).dedup.length ∧
      (((List.range n).map (E.sqlite3_column_name s1 st.statement_)).Nodup → r.size = n) ∧
      ∀ i, i < n → ∃ k, i ≤ k ∧ k < n ∧
        E.sqlite3_column_name s1 st.statement_ k = E.sqlite3_column_name s1 st.statement_ i ∧
        (∀ m, k < m → m < n →
          E.sqlite3_column_name s1 st.statement_ m ≠ E.sqlite3_column_name s1 st.statement_ i) ∧
        (((List.range n).map (E.sqlite3_column_name s1 st.statement_)).Nodup → k = i) ∧
        (decoded_cell E s1 st.statement_ k).type
          = ctype_of_decl (E.sqlite3_column_decltype s1 st.statement_ k) ∧
        r.get (ctype_of_decl (E.sqlite3_column_decltype s1 st.statement_ k))
            (E.sqlite3_column_name s1 st.statement_ i)
          = .ok (decoded_cell E s1 st.statement_ k) ∧
        ∀ T, T ≠ ctype_of_decl (E.sqlite3_column_decltype s1 st.statement_ k) →
          r.get T (E.sqlite3_column_name s1 st.statement_ i) = .throw .bad_cast := by
  obtain ⟨w1, _, hrun⟩ :=
    call_row_recognised E st.statement_ fuel n n (extractor.mk []) row.empty
      { eng := s1, log := w.log ++ [Call.step st.statement_] } hcnt (by omega) (by simp) hfuel
      (by simpa using hrec)
  have hfetch := fetch_of_step E fuel st (.row row.empty) w SQLITE_ROW s1 hstep (Or.inl rfl)
  simp only [extractor.call, hrun] at hfetch
  rw [hfetch]
  refine ⟨by simp [Res.returning], _, rfl, ?_, ?_, ?_⟩
  · exact size_decoded_cells E s1 st.statement_ n
  · intro hnd
    have := size_decoded_cells E s1 st.statement_ n
    simp only [List.length_nil] at this ⊢
    rw [this, List.Nodup.dedup hnd]
    simp
  · intro i hi
    obtain ⟨k, hk1, hk2, hk3, hk4, hk5⟩ :=
      find_decoded_cells E s1 st.statement_ n row.empty i hi
    have hget := row_get_of_find _ _ _ hk5
    rw [decoded_cell_type] at hget
    exact ⟨k, hk1, hk2, hk3, hk4,
      fun hnd => column_eq_of_nodup _ n hnd i k hi hk2 hk3,
      decoded_cell_type E s1 st.statement_ k, hget.1, hget.2⟩

/-- C5 as stated fails: the table engine reports a row of two INTEGER columns both
named `a`; `fetch` into an empty row returns true, and the row has one entry, not
two. -/
theorem C5_counterexample_duplicate_column_names :
    table_engine.sqlite3_step (table_world [[int_column "a" 1, int_column "a" 2]]).eng 1
      = (SQLITE_ROW, { pending := [], current := [int_column "a" 1, int_column "a" 2] }) ∧
    table_engine.sqlite3_column_count
      { pending := [], current := [int_column "a" 1, int_column "a" 2] } 1 = 2 ∧
    (∀ i, i < 2 → table_engine.sqlite3_column_decltype
      { pending := [], current := [int_column "a" 1, int_column "a" 2] } 1 i
        = some "INTEGER") ∧
    (select_stmt.fetch table_engine 2 (.row row.empty)
      (table_world [[int_column "a" 1, int_column "a" 2]])).1 = .ok true ∧
    (select_stmt.fetch table_engine 2 (.row row.empty)
      (table_world [[int_column "a" 1, int_column "a" 2]])).2.2.1
        = .row { columns_ := [("a", .int 2)] } ∧
    (row.mk [("a", .int 2)]).size = 1 := by
  decide

/-- C5 (amended) at a concrete row: an INTEGER, a TEXT and a FLOAT column with
distinct names. -/
theorem C5_fetch_row_witness :
    (select_stmt.fetch table_engine 3 (.row row.empty)
      (table_world [[int_column "a" 42, text_column "b" "hello",
        float_column "c" (Double.mk 7)]])).1 = .ok true ∧
    (select_stmt.fetch table_engine 3 (.row row.empty)
      (table_world [[int_column "a" 42, text_column "b" "hello",
        float_column "c" (Double.mk 7)]])).2.2.1
      = .row { columns_ := [("a", .int 42), ("b", .string "hello"),
          ("c", .double (Double.mk 7))] } :=
  ⟨(C5_fetch_row_of_recognised_columns table_engine select_stmt
      (table_world [[int_column "a" 42, text_column "b" "hello",
        float_column "c" (Double.mk 7)]]) 3 3
      { pending := [], current := [int_column "a" 42, text_column "b" "hello",
        float_column "c" (Double.mk 7)] }
      (by decide) (by decide) (by decide) (by decide) (by decide)).1,
   by decide⟩

/-- C6 (amended): generic-row extraction on a cleared extractor, where the columns
`0..j-1` have declared types among TEXT, INTEGER, FLOAT and column `j` has any other
declared type string, throws the unsupported-conversion error; at that point the counter is
`j` and the row is the initial row with the decoded cells of the columns `0..j-1`
added in column order, nothing being added for column `j` or later.  A name carried
by none of these columns keeps the cell it had; when the row was empty and the names
of the columns `0..j-1` are pairwise distinct, it holds exactly `j` entries, column
`i` found under its name with its decoded value. -/
theorem C6_row_extraction_stops_at_unrecognised_type {σ : Type} (E : Engine σ)
    (h fuel j : Nat) (x : extractor) (into : row) (w : World σ)
    (hcnt : j < to_size_t (E.sqlite3_column_count w.eng h)) (hfuel : j < fuel)
    (hrec : ∀ i, i < j → recognised (E.sqlite3_column_decltype w.eng h i))
    (hstr : E.sqlite3_column_decltype w.eng h j ≠ none)
    (hbad : ¬ recognised (E.sqlite3_column_decltype w.eng h j)) :
    (x.reset.call_row E h fuel into w).1
      = .throw (.SQLiteError SQLITE_ERROR "Unsuported conversion") ∧
    (x.reset.call_row E h fuel into w).2.1.extracted_.length = j ∧
    (x.reset.call_row E h fuel into w).2.2.1
      = row.add_all (decoded_cells E w.eng h 0 j) into ∧
    (∀ name, name ∉ (List.range j).map (E.sqlite3_column_name w.eng h) →
      (x.reset.call_row E h fuel into w).2.2.1.find name = into.find name) ∧
    (into = row.empty → ((List.range j).map (E.sqlite3_column_name w.eng h)).Nodup →
      (x.reset.call_row E h fuel into w).2.2.1.size = j ∧
      ∀ i, i < j →
        (x.reset.call_row E h fuel into w).2.2.1.find (E.sqlite3_column_name w.eng h i)
          = some (decoded_cell E w.eng h i)) := by
  obtain ⟨w1, _, hrun⟩ :=
    call_row_unrecognised E h fuel j x.reset into w (by simpa [extractor.reset] using hcnt)
      hfuel (by simpa [extractor.reset] using hrec) (by simpa [extractor.reset] using hstr)
      (by simpa [extractor.reset] using hbad)
  rw [hrun]
  refine ⟨rfl, by simp [extractor.reset], rfl, ?_, ?_⟩
  · intro name hname
    dsimp only [extractor.reset, List.length_nil]
    apply find_add_all_of_not_mem
    rwa [decoded_cells_names, ← List.range_eq_range']
  · intro hempty hnd
    subst hempty
    dsimp only [extractor.reset, List.length_nil]
    refine ⟨?_, ?_⟩
    · rw [size_decoded_cells, List.Nodup.dedup hnd]; simp
    · intro i hi
      obtain ⟨k, _, hk2, hk3, _, hk5⟩ := find_decoded_cells E w.eng h j row.empty i hi
      have hki := column_eq_of_nodup _ j hnd i k hi hk2 hk3
      rw [hk5, hki]

/-- C6 as stated fails: columns 0 and 1 are INTEGER columns both named `a`, column 2
is a BLOB.  Extraction throws the unsupported-conversion error, but the row then
holds one entry, not two, and under the name of column 0 it holds the value of
column 1, not the decoded value 1 of column 0. -/
theorem C6_counterexample_duplicate_column_names :
    ((extractor.mk []).reset.call_row table_engine 1 3 row.empty duplicate_then_blob).1
      = .throw (.SQLiteError SQLITE_ERROR "Unsuported conversion") ∧
    ((extractor.mk []).reset.call_row table_engine 1 3 row.empty duplicate_then_blob).2.2.1.size
      = 1 ∧
    ((extractor.mk []).reset.call_row table_engine 1 3 row.empty duplicate_then_blob).2.2.1.find
        (table_engine.sqlite3_column_name duplicate_then_blob.eng 1 0) = some (.int 2) ∧
    decoded_cell table_engine duplicate_then_blob.eng 1 0 = .int 1 := by
  decide

/-- C6 (amended) at a concrete row: the third column is declared `integer`, which
does not match `INTEGER`; extraction throws with the first two cells in the row. -/
theorem C6_row_extraction_witness :
    ((extractor.mk [true]).reset.call_row table_engine 1 3 row.empty lower_case_decl).1
      = .throw (.SQLiteError SQLITE_ERROR "Unsuported conversion") ∧
    ((extractor.mk [true]).reset.call_row table_engine 1 3 row.empty lower_case_decl).2.2.1
      = { columns_ := [("a", .int 42), ("b", .string "hello")] } :=
  ⟨(C6_row_extraction_stops_at_unrecognised_type table_engine 1 3 2 (extractor.mk [true])
      row.empty lower_case_decl (by decide) (by decide) (by decide) (by decide) (by decide)).1,
   by decide⟩

/-! ## Binding a value and reading it back -/

/-- The lower 32 bits of an `int` are the `int`. -/
theorem low_int32_of_int32 (v : Int) (hv : is_int32 v) : low_int32 v = v := by
  unfold is_int32 at hv
  unfold low_int32
  have h1 : (v + 2 ^ 31) % 2 ^ 32 = v + 2 ^ 31 := by
    apply Int.emod_eq_of_lt <;> omega
  rw [h1]; omega

/-- The engine for `SELECT ?` satisfies the engine model on a non-null cursor. -/
theorem param_engine_echoes (s : Param) (h : Nat) (hh : h ≠ 0) :
    EchoesParam param_engine h s where
  bind_ok := by intro c hc; simp [param_engine, hh, hc, SQLITE_OK]
  step_row := by intro c hc; simp [param_engine, hh, hc]
  holds_text := by intro val n; simp [param_engine, hh, NativeBind.pos]
  holds_int := by
    intro v hv
    simp [param_engine, hh, NativeBind.pos]
    exact low_int32_of_int32 v hv
  holds_int64 := by intro v _; simp [param_engine, hh, NativeBind.pos]

/-- The C string read from a buffer made of a NUL-free string and a terminator is
that string. -/
theorem c_str_view_terminated (v : String) (hv : NUL ∉ v.data) :
    c_str_view (bound_bytes v (v.data.length + 1)) = v := by
  unfold c_str_view bound_bytes
  have htake : (v.data ++ [NUL]).take (v.data.length + 1) = v.data ++ [NUL] := by
    apply List.take_of_length_le; simp
  simp only [htake]
  have hw : (v.data ++ [NUL]).takeWhile (fun c => c != NUL) = v.data := by
    rw [List.takeWhile_append_of_pos]
    · simp
    · intro c hc
      have : c ≠ NUL := fun e => hv (e ▸ hc)
      simpa using this
  rw [hw]

/-- A bind on a fresh binder whose native bind is accepted: the outcome, the binder
and the world afterwards. -/
theorem bind_fresh_accepted {σ : Type} (E : Engine σ) (st : statement) (w : World σ)
    (c : NativeBind) (hok : (E.sqlite3_bind w.eng st.statement_ c).1 = 0) :
    st.binder_.issue E st.statement_ c w =
      (.ok (), { bound_ := st.binder_.bound_ ++ [true] },
        { eng := (E.sqlite3_bind w.eng st.statement_ c).2,
          log := w.log ++ [Call.bind st.statement_ c] }) := by
  simp [binder.issue, binder.check, native_bind, hok]

/-- Under the engine model of `SELECT ?`, a fetch into a scalar after an accepted
bind at position 1 returns true and leaves in the target what the extractor reads at
column 0 of the row stepped to. -/
theorem fetch_scalar_after_bind {σ : Type} (E : Engine σ) (fuel : Nat) (st : statement)
    (w : World σ) (c : NativeBind) (into : value) (b : binder)
    (hrow : (E.sqlite3_step (E.sqlite3_bind w.eng st.statement_ c).2 st.statement_).1
      = SQLITE_ROW) :
    (({ st with binder_ := b } : statement).fetch E fuel (.scalar into)
        { eng := (E.sqlite3_bind w.eng st.statement_ c).2,
          log := w.log ++ [Call.bind st.statement_ c] }).1 = .ok true ∧
    (({ st with binder_ := b } : statement).fetch E fuel (.scalar into)
        { eng := (E.sqlite3_bind w.eng st.statement_ c).2,
          log := w.log ++ [Call.bind st.statement_ c] }).2.2.1 =
      .scalar ((extractor.mk []).call_scalar E st.statement_ into
        { eng := (E.sqlite3_step (E.sqlite3_bind w.eng st.statement_ c).2 st.statement_).2,
          log := w.log ++ [Call.bind st.statement_ c] ++ [Call.step st.statement_] }).2.1 := by
  have hf := fetch_of_step E fuel ({ st with binder_ := b } : statement) (.scalar into)
    { eng := (E.sqlite3_bind w.eng st.statement_ c).2,
      log := w.log ++ [Call.bind st.statement_ c] }
    SQLITE_ROW (E.sqlite3_step (E.sqlite3_bind w.eng st.statement_ c).2 st.statement_).2
    (by rw [← hrow]) (Or.inl rfl)
  rw [hf]
  exact ⟨by simp [extractor.call, Res.returning], rfl⟩

/-- C7 (amended): under an engine model in which the single column of `SELECT ?`
holds exactly what was bound at position 1, binding a value on the freshly prepared
statement and fetching the column into a target of the same type gives a target
equal to the value, for every `std::string` without an embedded NUL character, every
32-bit `int` and every 64-bit `long long`. -/
theorem C7_bind_then_fetch_round_trip {σ : Type} (E : Engine σ) (fuel : Nat)
    (st : statement) (w : World σ) (hfresh : st.binder_.bound_ = [])
    (hecho : EchoesParam E st.statement_ w.eng) :
    (∀ v s0 : String, NUL ∉ v.data →
      st.bind_then_fetch E fuel (.string v) (.scalar (.string s0)) w
        = (.ok true, .scalar (.string v))) ∧
    (∀ v i0 : Int, is_int32 v →
      st.bind_then_fetch E fuel (.int v) (.scalar (.int i0)) w
        = (.ok true, .scalar (.int v))) ∧
    (∀ v i0 : Int, is_int64 v →
      st.bind_then_fetch E fuel (.longlong v) (.scalar (.longlong i0)) w
        = (.ok true, .scalar (.longlong v))) := by
  refine ⟨?_, ?_, ?_⟩
  · intro v s0 hv
    have hb := bind_fresh_accepted E st w (.text 1 v (v.data.length + 1))
      (hecho.bind_ok _ rfl)
    have hf := fetch_scalar_after_bind E fuel st w (.text 1 v (v.data.length + 1))
      (.string s0) { bound_ := st.binder_.bound_ ++ [true] } (hecho.step_row _ rfl)
    have ht := hecho.holds_text v (v.data.length + 1)
    simp only [statement.bind_then_fetch, statement.bind, binder.call, binder.call_string,
      hfresh, List.length_nil, Nat.zero_add] at hb hf ⊢
    rw [hb]
    simp only []
    rw [hf.1, hf.2]
    simp only [extractor.call_scalar, extractor.call_string, List.length_nil, ht,
      c_str_view_terminated v hv]
  · intro v i0 hv
    have hb := bind_fresh_accepted E st w (.int 1 v) (hecho.bind_ok _ rfl)
    have hf := fetch_scalar_after_bind E fuel st w (.int 1 v)
      (.int i0) { bound_ := st.binder_.bound_ ++ [true] } (hecho.step_row _ rfl)
    have ht := hecho.holds_int v hv
    simp only [statement.bind_then_fetch, statement.bind, binder.call,
      hfresh, List.length_nil, Nat.zero_add] at hb hf ⊢
    rw [hb]
    simp only []
    rw [hf.1, hf.2]
    simp only [extractor.call_scalar, extractor.call_int, List.length_nil, ht]
  · intro v i0 hv
    have hb := bind_fresh_accepted E st w (.int64 1 v) (hecho.bind_ok _ rfl)
    have hf := fetch_scalar_after_bind E fuel st w (.int64 1 v)
      (.longlong i0) { bound_ := st.binder_.bound_ ++ [true] } (hecho.step_row _ rfl)
    have ht := hecho.holds_int64 v hv
    simp only [statement.bind_then_fetch, statement.bind, binder.call,
      hfresh, List.length_nil, Nat.zero_add] at hb hf ⊢
    rw [hb]
    simp only []
    rw [hf.1, hf.2]
    simp only [extractor.call_scalar, extractor.call_longlong, List.length_nil, ht]

/-- C7 as stated fails: on the engine for `SELECT ?`, which satisfies the engine
model, the `std::string` of the three bytes `a`, NUL, `b` is bound and fetched back
into an empty `std::string`; the fetch returns true and the target is the one-byte
string `a`, not the value bound. -/
theorem C7_counterexample_string_with_embedded_nul :
    EchoesParam param_engine select_param.statement_ param_world.eng ∧
    select_param.bind_then_fetch param_engine 0 (.string string_with_nul)
      (.scalar (.string "")) param_world = (.ok true, .scalar (.string "a")) ∧
    string_with_nul ≠ "a" :=
  ⟨param_engine_echoes _ 1 (by decide), by decide, by decide⟩

/-- C7 (amended) at concrete values: the string `hello` and the `int` -7 come back
equal on the engine for `SELECT ?`. -/
theorem C7_round_trip_witness :
    select_param.bind_then_fetch param_engine 0 (.string "hello")
      (.scalar (.string "")) param_world = (.ok true, .scalar (.string "hello")) ∧
    select_param.bind_then_fetch param_engine 0 (.int (-7))
      (.scalar (.int 0)) param_world = (.ok true, .scalar (.int (-7))) :=
  ⟨(C7_bind_then_fetch_round_trip param_engine 0 select_param param_world rfl
      (param_engine_echoes _ 1 (by decide))).1 "hello" "" (by decide),
   (C7_bind_then_fetch_round_trip param_engine 0 select_param param_world rfl
      (param_engine_echoes _ 1 (by decide))).2.1 (-7) 0 (by unfold is_int32; omega)⟩

/-- The `long` specialisation of the extractor reads with `sqlite3_column_int`: on
the engine for `SELECT ?` the `long` 4294967296, bound with `sqlite3_bind_int64`,
is fetched back as 0, while the same value as a `long long` comes back unchanged. -/
theorem long_read_back_keeps_low_32_bits :
    select_param.bind_then_fetch param_engine 0 (.long 4294967296)
      (.scalar (.long 0)) param_world = (.ok true, .scalar (.long 0)) ∧
    select_param.bind_then_fetch param_engine 0 (.longlong 4294967296)
      (.scalar (.longlong 0)) param_world = (.ok true, .scalar (.longlong 4294967296)) := by
  decide

/-! ## Statement: exec and fetch -/

/-- The generic-row loop is made of column reads only, whatever the declared types
and the budget. -/
theorem row_loop_frame {σ : Type} (E : Engine σ) (h : Nat) (cnt : Int) (fuel : Nat) :
    ∀ (x : extractor) (into : row) (w : World σ),
      (extractor.row_loop E h cnt fuel x into w).2.2.2.reads_after w := by
  induction fuel with
  | zero =>
    intro x into w
    by_cases hm : to_size_t cnt > x.extracted_.length
    · simp only [extractor.row_loop, hm, if_true]
      exact reads_after_refl w
    · simp only [extractor.row_loop, hm, if_false]
      exact reads_after_refl w
  | succ fuel ih =>
    intro x into w
    by_cases hm : to_size_t cnt > x.extracted_.length
    · by_cases hr : recognised (E.sqlite3_column_decltype w.eng h x.extracted_.length)
      · obtain ⟨w1, hr1, hstep⟩ := row_loop_step E h cnt fuel x into w hm hr
        rw [hstep]
        exact reads_after_trans _ w1 w (ih _ _ w1) hr1
      · by_cases hnull : E.sqlite3_column_decltype w.eng h x.extracted_.length = none
        · rw [row_loop_null_decltype E h cnt fuel x into w hm hnull]
          exact reads_after_trans _ _ w (reads_after_note _ _ rfl) (reads_after_note w _ rfl)
        · rw [row_loop_unrecognised E h cnt fuel x into w hm hnull hr]
          exact reads_after_trans _ _ w (reads_after_note _ _ rfl) (reads_after_note w _ rfl)
    · simp only [extractor.row_loop, hm, if_false]
      exact reads_after_refl w

/-- An extraction is made of column reads only, and it keeps the static type of the
target. -/
theorem extractor_call_frame {σ : Type} (E : Engine σ) (h fuel : Nat) (x : extractor)
    (into : Target) (w : World σ) :
    (x.call E h fuel into w).2.2.2.reads_after w ∧
    (x.call E h fuel into w).2.2.1.same_kind into := by
  cases into with
  | scalar v =>
    cases v <;>
      exact ⟨reads_after_note w _ rfl, rfl⟩
  | row r =>
    refine ⟨?_, trivial⟩
    exact reads_after_trans _ _ w (row_loop_frame E h _ fuel x r _) (reads_after_note w _ rfl)

/-- Column reads leave the number of steps in the log as it was. -/
theorem step_count_reads_after {σ : Type} (w1 w : World σ) (hr : w1.reads_after w) :
    step_count w1.log = step_count w.log := by
  obtain ⟨_, calls, hl, hn⟩ := hr
  rw [hl]
  unfold step_count
  rw [List.countP_append]
  have : List.countP Call.isStep calls = 0 := by
    rw [List.countP_eq_zero]
    intro c hc
    simp [hn c hc]
  omega

/-- C8: `exec()` issues exactly one engine step (the log grows by that one call, the
engine is left in the state after it, the statement is not modified); it returns
normally if and only if the step reports `SQLITE_DONE`; when the step reports
`SQLITE_ROW` it throws; for any other status `rc` it throws the `SQLiteError` of
`rc` whose message is the SQL text of the statement. -/
theorem C8_exec_outcomes {σ : Type} (E : Engine σ) (st : statement) (w : World σ) :
    (st.exec E w).2.2.log = w.log ++ [Call.step st.statement_] ∧
    (st.exec E w).2.2.eng = (E.sqlite3_step w.eng st.statement_).2 ∧
    (st.exec E w).2.1 = st ∧
    ((st.exec E w).1 = .ok () ↔ (E.sqlite3_step w.eng st.statement_).1 = SQLITE_DONE) ∧
    ((E.sqlite3_step w.eng st.statement_).1 = SQLITE_ROW →
      (st.exec E w).1 = .throw (.SQLiteError SQLITE_ROW "use fetch() instead of exec()")) ∧
    ((E.sqlite3_step w.eng st.statement_).1 ≠ SQLITE_DONE →
      (E.sqlite3_step w.eng st.statement_).1 ≠ SQLITE_ROW →
      (st.exec E w).1 = .throw (.SQLiteError (E.sqlite3_step w.eng st.statement_).1 st.sql_)) := by
  have hne : SQLITE_ROW ≠ SQLITE_DONE := by decide
  by_cases hrow : (E.sqlite3_step w.eng st.statement_).1 = SQLITE_ROW
  · have hnd : (E.sqlite3_step w.eng st.statement_).1 ≠ SQLITE_DONE := by rw [hrow]; exact hne
    simp [statement.exec, native_step, hrow, hne]
  · by_cases hdone : (E.sqlite3_step w.eng st.statement_).1 = SQLITE_DONE
    · simp [statement.exec, native_step, hrow, hdone, hne.symm]
    · simp [statement.exec, native_step, hrow, hdone]

/-- C8 at concrete statements: an `INSERT` on the table engine with nothing pending
is done; a statement with a row pending throws; on the null cursor the status 21
comes back with the SQL text. -/
theorem C8_exec_witness :
    (select_stmt.exec table_engine idle_world).1 = .ok () ∧
    (select_stmt.exec table_engine (table_world [[int_column "a" 1]])).1
      = .throw (.SQLiteError 100 "use fetch() instead of exec()") ∧
    (({ select_stmt with statement_ := 0 } : statement).exec table_engine idle_world).1
      = .throw (.SQLiteError 21 "SELECT a, b, c FROM t") ∧
    (select_stmt.exec table_engine idle_world).2.2.log = [Call.step 1] := by
  decide

/-- When code that returns `a` after `r` returns normally, `r` did and the value is
`a`. -/
theorem returning_eq_ok {α : Type} (r : Res Unit) (a b : α) (h : r.returning a = .ok b) :
    r = .ok () ∧ a = b := by
  cases r with
  | ok u => cases u; simp [Res.returning] at h; exact ⟨rfl, h⟩
  | throw e => simp [Res.returning] at h
  | crash => simp [Res.returning] at h
  | timeout => simp [Res.returning] at h

/-- C9: `fetch(into)` issues exactly one engine step: the log grows by that step
followed by calls none of which is a step.  If the step reports `SQLITE_ROW` or
`SQLITE_DONE`, `fetch` is the extractor run on `into` from a cleared counter (so
from column index 0, whatever `extracted_` held before) in the engine state left by
the step, and when that extraction returns normally (as every scalar extraction
does) `fetch` returns true exactly when the status was `SQLITE_ROW` and false
exactly when it was `SQLITE_DONE`.  For any other status `rc` it throws the
`SQLiteError` of `rc`. -/
theorem C9_fetch_steps_once_then_extracts {σ : Type} (E : Engine σ) (fuel : Nat)
    (st : statement) (into : Target) (w : World σ) :
    (∃ calls : List Call,
      (st.fetch E fuel into w).2.2.2.log = w.log ++ Call.step st.statement_ :: calls ∧
      ∀ c ∈ calls, c.isStep = false) ∧
    ((E.sqlite3_step w.eng st.statement_).1 = SQLITE_ROW ∨
        (E.sqlite3_step w.eng st.statement_).1 = SQLITE_DONE →
      st.fetch E fuel into w =
        (((extractor.mk []).call E st.statement_ fuel into
            { eng := (E.sqlite3_step w.eng st.statement_).2,
              log := w.log ++ [Call.step st.statement_] }).1.returning
              (decide ((E.sqlite3_step w.eng st.statement_).1 = SQLITE_ROW)),
         { st with extractor_ := ((extractor.mk []).call E st.statement_ fuel into
            { eng := (E.sqlite3_step w.eng st.statement_).2,
              log := w.log ++ [Call.step st.statement_] }).2.1 },
         ((extractor.mk []).call E st.statement_ fuel into
            { eng := (E.sqlite3_step w.eng st.statement_).2,
              log := w.log ++ [Call.step st.statement_] }).2.2.1,
         ((extractor.mk []).call E st.statement_ fuel into
            { eng := (E.sqlite3_step w.eng st.statement_).2,
              log := w.log ++ [Call.step st.statement_] }).2.2.2)) ∧
    (∀ v : value, into = .scalar v →
      ((E.sqlite3_step w.eng st.statement_).1 = SQLITE_ROW →
        (st.fetch E fuel into w).1 = .ok true) ∧
      ((E.sqlite3_step w.eng st.statement_).1 = SQLITE_DONE →
        (st.fetch E fuel into w).1 = .ok false)) ∧
    (∀ b : Bool, (st.fetch E fuel into w).1 = .ok b →
      (b = true ↔ (E.sqlite3_step w.eng st.statement_).1 = SQLITE_ROW) ∧
      (b = false ↔ (E.sqlite3_step w.eng st.statement_).1 = SQLITE_DONE)) ∧
    ((E.sqlite3_step w.eng st.statement_).1 ≠ SQLITE_ROW →
      (E.sqlite3_step w.eng st.statement_).1 ≠ SQLITE_DONE →
      (st.fetch E fuel into w).1
        = .throw (.SQLiteError (E.sqlite3_step w.eng st.statement_).1 "")) := by
  have hne : SQLITE_ROW ≠ SQLITE_DONE := by decide
  by_cases hrc : (E.sqlite3_step w.eng st.statement_).1 = SQLITE_ROW ∨
      (E.sqlite3_step w.eng st.statement_).1 = SQLITE_DONE
  · have hf := fetch_of_step E fuel st into w _ _ rfl hrc
    have hframe := (extractor_call_frame E st.statement_ fuel (extractor.mk []) into
      { eng := (E.sqlite3_step w.eng st.statement_).2,
        log := w.log ++ [Call.step st.statement_] }).1
    refine ⟨?_, fun _ => hf, ?_, ?_, ?_⟩
    · obtain ⟨_, calls, hl, hn⟩ := hframe
      refine ⟨calls, ?_, hn⟩
      rw [hf]
      simp only [hl]
      simp
    · intro v hv
      subst hv
      rw [hf]
      refine ⟨fun h1 => ?_, fun h1 => ?_⟩
      · simp [extractor.call, Res.returning, h1]
      · have h2 : (E.sqlite3_step w.eng st.statement_).1 ≠ SQLITE_ROW := by
          rw [h1]; exact hne.symm
        simp [extractor.call, Res.returning, h2]
    · intro b hb
      rw [hf] at hb
      obtain ⟨_, hdec⟩ := returning_eq_ok _ _ _ hb
      subst hdec
      refine ⟨by simp, ?_⟩
      rcases hrc with h1 | h1
      · rw [h1]; simp [hne]
      · rw [h1]; simp [hne.symm]
    · intro h1 h2
      rcases hrc with h3 | h3
      · exact absurd h3 h1
      · exact absurd h3 h2
  · have hrc2 : (E.sqlite3_step w.eng st.statement_).1 ≠ SQLITE_ROW ∧
        (E.sqlite3_step w.eng st.statement_).1 ≠ SQLITE_DONE := by
      constructor
      · exact fun e => hrc (Or.inl e)
      · exact fun e => hrc (Or.inr e)
    have hf := fetch_of_step_error E fuel st into w _ _ rfl hrc2
    refine ⟨⟨[], by rw [hf], by simp⟩, fun h => absurd h hrc, ?_, ?_, ?_⟩
    · intro v _
      exact ⟨fun h1 => absurd h1 hrc2.1, fun h1 => absurd h1 hrc2.2⟩
    · intro b hb
      rw [hf] at hb
      simp at hb
    · intro _ _
      rw [hf]

/-- C9 at a concrete statement whose extractor holds three marks from an earlier
fetch: fetching an `int` steps once and reads column 0; on the next call the table
is exhausted, `fetch` returns false and has again read column 0; on the null cursor
`fetch` throws the status 21. -/
theorem C9_fetch_witness :
    (({ select_stmt with extractor_ := { extracted_ := [true, true, true] } } : statement).fetch
        table_engine 0 (.scalar (.int 0)) (table_world [[int_column "a" 42]])).1 = .ok true ∧
    (({ select_stmt with extractor_ := { extracted_ := [true, true, true] } } : statement).fetch
        table_engine 0 (.scalar (.int 0)) (table_world [[int_column "a" 42]])).2.2.1
      = .scalar (.int 42) ∧
    (({ select_stmt with extractor_ := { extracted_ := [true, true, true] } } : statement).fetch
        table_engine 0 (.scalar (.int 0)) (table_world [[int_column "a" 42]])).2.2.2.log
      = [Call.step 1, Call.column_int 1 0] ∧
    (select_stmt.fetch table_engine 0 (.scalar (.int 7)) idle_world).1 = .ok false ∧
    (select_stmt.fetch table_engine 0 (.scalar (.int 7)) idle_world).2.2.2.log
      = [Call.step 1, Call.column_int 1 0] ∧
    (({ select_stmt with statement_ := 0 } : statement).fetch table_engine 0
        (.scalar (.int 7)) idle_world).1 = .throw (.SQLiteError 21 "") := by
  decide

/-! ## Rowset iteration -/

/-- Every target has its own static type. -/
theorem same_kind_refl (t : Target) : t.same_kind t := by
  cases t <;> simp [Target.same_kind]

/-- Having the same static type is transitive. -/
theorem same_kind_trans (a b c : Target) (hab : a.same_kind b) (hbc : b.same_kind c) :
    a.same_kind c := by
  cases a <;> cases b <;> cases c <;> simp_all [Target.same_kind]

/-- One advance of an iterator when the step reports `SQLITE_ROW` or `SQLITE_DONE`
and the extraction succeeds: the iterator is kept on `SQLITE_ROW` and becomes the
end iterator on `SQLITE_DONE`; the cursor and the static type of the slot are kept,
the engine is in the state after the step and the log holds one more step. -/
theorem incr_of_step {σ : Type} (E : Engine σ) (fuel : Nat) (it : rowset_iterator)
    (rs : rowset) (w : World σ) (kind : Target) (hk : rs.current_.same_kind kind)
    (hrc : (E.sqlite3_step w.eng rs.statement_.statement_).1 = SQLITE_ROW ∨
      (E.sqlite3_step w.eng rs.statement_.statement_).1 = SQLITE_DONE)
    (hext : extraction_succeeds E rs.statement_.statement_ fuel kind
      (E.sqlite3_step w.eng rs.statement_.statement_).2) :
    (it.incr E fuel rs w).1 =
      .ok (if (E.sqlite3_step w.eng rs.statement_.statement_).1 = SQLITE_ROW then it
        else rowset.end_) ∧
    (it.incr E fuel rs w).2.1.statement_.statement_ = rs.statement_.statement_ ∧
    (it.incr E fuel rs w).2.1.current_.same_kind kind ∧
    (it.incr E fuel rs w).2.2.eng = (E.sqlite3_step w.eng rs.statement_.statement_).2 ∧
    step_count (it.incr E fuel rs w).2.2.log = step_count w.log + 1 := by
  have hf := fetch_of_step E fuel rs.statement_ rs.current_ w _ _ rfl hrc
  have hok := hext rs.current_ (w.log ++ [Call.step rs.statement_.statement_]) hk
  obtain ⟨hreads, hkind⟩ := extractor_call_frame E rs.statement_.statement_ fuel
    (extractor.mk []) rs.current_
    { eng := (E.sqlite3_step w.eng rs.statement_.statement_).2,
      log := w.log ++ [Call.step rs.statement_.statement_] }
  have hcount := step_count_reads_after _ _ hreads
  simp only [rowset_iterator.incr, hf, hok, Res.returning]
  refine ⟨?_, trivial, same_kind_trans _ _ _ hkind hk, hreads.1, ?_⟩
  · by_cases h1 : (E.sqlite3_step w.eng rs.statement_.statement_).1 = SQLITE_ROW
    · simp [h1]
    · simp [h1, rowset.end_]
  · rw [hcount]
    simp [step_count, List.countP_append, Call.isStep]

/-- The loop on the end iterator stops at once, whatever the budget. -/
theorem for_loop_at_end {σ : Type} (E : Engine σ) (fuel n : Nat) (rs : rowset)
    (seen : List Target) (w : World σ) :
    rowset.for_loop E fuel n rowset.end_ rs seen w = (.ok rowset.end_, seen, rs, w) := by
  cases n <;> simp [rowset.for_loop, rowset_iterator.ne, rowset_iterator.eq, rowset.end_]

/-- The loop entered on a row, with `j` more rows to come before the end: with a
budget above `j` it dereferences `j + 1` times, issues `j + 1` steps and ends on the
end iterator. -/
theorem for_loop_rows {σ : Type} (E : Engine σ) (fuel : Nat) (kind : Target) (j : Nat) :
    ∀ (n : Nat) (rs : rowset) (seen : List Target) (w : World σ),
      j < n → rs.current_.same_kind kind →
      rows_then_done E rs.statement_.statement_ fuel kind j w.eng →
      (rowset.for_loop E fuel n { statement_ := true, value_ := true } rs seen w).1
        = .ok rowset.end_ ∧
      (rowset.for_loop E fuel n { statement_ := true, value_ := true } rs seen w).2.1.length
        = seen.length + (j + 1) ∧
      step_count
          (rowset.for_loop E fuel n { statement_ := true, value_ := true } rs seen w).2.2.2.log
        = step_count w.log + (j + 1) := by
  have hne : SQLITE_ROW ≠ SQLITE_DONE := by decide
  have hnotend :
      rowset_iterator.ne { statement_ := true, value_ := true } rowset.end_ = true := by
    decide
  induction j with
  | zero =>
    intro n rs seen w hn hk hrun
    obtain ⟨m, rfl⟩ : ∃ m, n = m + 1 := ⟨n - 1, by omega⟩
    obtain ⟨hdone, hext⟩ := hrun
    obtain ⟨h1, _, _, _, h5⟩ :=
      incr_of_step E fuel { statement_ := true, value_ := true } rs w kind hk (Or.inr hdone) hext
    have hnr : (E.sqlite3_step w.eng rs.statement_.statement_).1 ≠ SQLITE_ROW := by
      rw [hdone]; exact hne.symm
    simp only [hnr, if_false] at h1
    simp only [rowset.for_loop, hnotend, if_true, h1, for_loop_at_end]
    exact ⟨trivial, by simp, h5⟩
  | succ j ih =>
    intro n rs seen w hn hk hrun
    obtain ⟨m, rfl⟩ : ∃ m, n = m + 1 := ⟨n - 1, by omega⟩
    obtain ⟨hrow, hext, hrest⟩ := hrun
    obtain ⟨h1, h2, h3, h4, h5⟩ :=
      incr_of_step E fuel { statement_ := true, value_ := true } rs w kind hk (Or.inl hrow) hext
    simp only [hrow, if_true] at h1
    have hrec := ih m
      (({ statement_ := true, value_ := true } : rowset_iterator).incr E fuel rs w).2.1
      (seen ++ [rowset_iterator.deref { statement_ := true, value_ := true } rs])
      (({ statement_ := true, value_ := true } : rowset_iterator).incr E fuel rs w).2.2
      (by omega) h3 (by rw [h2, h4]; exact hrest)
    simp only [rowset.for_loop, hnotend, if_true, h1]
    obtain ⟨r1, r2, r3⟩ := hrec
    refine ⟨r1, ?_, ?_⟩
    · rw [r2]; simp; omega
    · rw [r3, h5]; omega

/-- C10: when the successive engine steps report `SQLITE_ROW` exactly `k` times and
then `SQLITE_DONE`, every extraction succeeding, the loop
`for (it = rs.begin(); it != rs.end(); ++it) use(*it)`, given a budget of at least
`k` iterations, ends normally with `it` equal to `rs.end()` after exactly `k`
dereferences, and the whole iteration issues exactly `k + 1` engine steps.  For
`k = 0`, `begin()` is already `end()` and nothing is dereferenced; for `k > 0`,
`begin()` differs from `end()`. -/
theorem C10_rowset_iteration_counts {σ : Type} (E : Engine σ) (fuel n k : Nat) (rs : rowset)
    (w : World σ)
    (hrun : rows_then_done E rs.statement_.statement_ fuel rs.current_ k w.eng)
    (hn : k ≤ n) :
    (rs.iterate E fuel n w).1 = .ok rowset.end_ ∧
    (rs.iterate E fuel n w).2.1.length = k ∧
    step_count (rs.iterate E fuel n w).2.2.2.log = step_count w.log + (k + 1) ∧
    (k = 0 → (rs.begin_ E fuel w).1 = .ok rowset.end_ ∧ (rs.iterate E fuel n w).2.1 = []) ∧
    (0 < k → ∃ it, (rs.begin_ E fuel w).1 = .ok it ∧ it.ne rowset.end_ = true) := by
  have hne : SQLITE_ROW ≠ SQLITE_DONE := by decide
  cases k with
  | zero =>
    obtain ⟨hdone, hext⟩ := hrun
    obtain ⟨h1, _, _, _, h5⟩ :=
      incr_of_step E fuel { statement_ := true, value_ := true } rs w rs.current_
        (same_kind_refl _) (Or.inr hdone) hext
    have hnr : (E.sqlite3_step w.eng rs.statement_.statement_).1 ≠ SQLITE_ROW := by
      rw [hdone]; exact hne.symm
    simp only [hnr, if_false] at h1
    simp only [rowset.iterate, rowset.begin_, h1, for_loop_at_end]
    exact ⟨trivial, rfl, h5, fun _ => ⟨trivial, trivial⟩, fun h => absurd h (by omega)⟩
  | succ j =>
    obtain ⟨hrow, hext, hrest⟩ := hrun
    obtain ⟨h1, h2, h3, h4, h5⟩ :=
      incr_of_step E fuel { statement_ := true, value_ := true } rs w rs.current_
        (same_kind_refl _) (Or.inl hrow) hext
    simp only [hrow, if_true] at h1
    obtain ⟨r1, r2, r3⟩ := for_loop_rows E fuel rs.current_ j n
      (({ statement_ := true, value_ := true } : rowset_iterator).incr E fuel rs w).2.1 []
      (({ statement_ := true, value_ := true } : rowset_iterator).incr E fuel rs w).2.2
      (by omega) h3 (by rw [h2, h4]; exact hrest)
    simp only [rowset.iterate, rowset.begin_, h1]
    refine ⟨r1, by rw [r2]; simp, by rw [r3, h5]; omega, fun h => absurd h (by omega),
      fun _ => ⟨_, rfl, by decide⟩⟩

/-- A scalar extraction always returns normally. -/
theorem extraction_succeeds_scalar {σ : Type} (E : Engine σ) (h fuel : Nat) (v : value)
    (s : σ) : extraction_succeeds E h fuel (.scalar v) s := by
  intro t log hk
  cases t with
  | scalar u => rfl
  | row r => exact absurd hk (by simp [Target.same_kind])

/-- C10 on a table of two rows: the loop ends on the end iterator after the two
dereferences 42 and 43 and three steps; on an empty table `begin()` is `end()`. -/
theorem C10_rowset_iteration_witness :
    (int_rowset.iterate table_engine 0 2
      (table_world [[int_column "a" 42], [int_column "a" 43]])).1 = .ok rowset.end_ ∧
    (int_rowset.iterate table_engine 0 2
      (table_world [[int_column "a" 42], [int_column "a" 43]])).2.1
        = [.scalar (.int 42), .scalar (.int 43)] ∧
    step_count (int_rowset.iterate table_engine 0 2
      (table_world [[int_column "a" 42], [int_column "a" 43]])).2.2.2.log = 3 ∧
    (int_rowset.begin_ table_engine 0 idle_world).1 = .ok rowset.end_ :=
  ⟨(C10_rowset_iteration_counts table_engine 0 2 2 int_rowset
      (table_world [[int_column "a" 42], [int_column "a" 43]])
      ⟨by decide, extraction_succeeds_scalar _ _ _ _ _, by decide,
        extraction_succeeds_scalar _ _ _ _ _, by decide,
        extraction_succeeds_scalar _ _ _ _ _⟩ (by decide)).1,
   by decide, by decide, by decide⟩

/-! ## Statement: reset and finalize -/

/-- C11: on a statement with a non-null handle on which `m` parameters have been
bound, a `reset()` whose native reset answers 0 returns normally after exactly one
native reset and leaves `bound_` empty, so that the next bind call issues a native
bind at position 1; on a statement whose handle is null, `reset()` returns normally,
issues no native call and leaves the statement, its binder counter included, as it
was. -/
theorem C11_reset_clears_binder {σ : Type} (E : Engine σ) (st : statement) (w : World σ) :
    (st.statement_ ≠ 0 → (E.sqlite3_reset w.eng st.statement_).1 = 0 →
      (st.reset E w).1 = .ok () ∧
      (st.reset E w).2.2.log = w.log ++ [Call.reset st.statement_] ∧
      (st.reset E w).2.1.statement_ = st.statement_ ∧
      (st.reset E w).2.1.binder_.bound_ = [] ∧
      ∀ a : BindArg, ∃ c : NativeBind, c.pos = 1 ∧
        ((st.reset E w).2.1.bind E a (st.reset E w).2.2).2.2.log
          = (st.reset E w).2.2.log ++ [Call.bind st.statement_ c]) ∧
    (st.statement_ = 0 →
      (st.reset E w).1 = .ok () ∧ (st.reset E w).2.1 = st ∧ (st.reset E w).2.2 = w) := by
  refine ⟨?_, ?_⟩
  · intro hh hrc
    have hres : st.reset E w =
        (.ok (), { st with binder_ := st.binder_.reset },
          { eng := (E.sqlite3_reset w.eng st.statement_).2,
            log := w.log ++ [Call.reset st.statement_] }) := by
      simp [statement.reset, native_reset, hh, hrc]
    rw [hres]
    refine ⟨rfl, rfl, rfl, rfl, ?_⟩
    intro a
    obtain ⟨c, hpos, hlog, _⟩ := binder_call_log E st.statement_ st.binder_.reset a
      { eng := (E.sqlite3_reset w.eng st.statement_).2,
        log := w.log ++ [Call.reset st.statement_] }
    exact ⟨c, by simpa [binder.reset] using hpos, hlog⟩
  · intro hh
    simp [statement.reset, hh]

/-- C11 at concrete statements: after three binds a reset on cursor 1 empties
`bound_` and the next bind goes to position 1; on the null cursor nothing
happens. -/
theorem C11_reset_witness :
    (bound_stmt.reset table_engine idle_world).1 = .ok () ∧
    (bound_stmt.reset table_engine idle_world).2.1.binder_.bound_ = [] ∧
    ((bound_stmt.reset table_engine idle_world).2.1.bind table_engine (.int 5)
        (bound_stmt.reset table_engine idle_world).2.2).2.2.log
      = [Call.reset 1, Call.bind 1 (.int 1 5)] ∧
    (finalized_stmt.reset table_engine idle_world).1 = .ok () ∧
    (finalized_stmt.reset table_engine idle_world).2.1 = finalized_stmt ∧
    (finalized_stmt.reset table_engine idle_world).2.2.log = [] := by
  decide

/-- A statement just constructed satisfies the invariant. -/
theorem wf_of_construct (sql : String) (rc : Int) (handle : Nat) (errmsg : String)
    (st : statement) (hst : statement.construct sql rc handle errmsg = .ok st) : st.wf := by
  unfold statement.construct at hst
  by_cases hrc : rc ≠ 0
  · simp [hrc] at hst
  · simp only [hrc, if_false] at hst
    cases hst
    intro _
    rfl

/-- Every member keeps the invariant, with an engine that refuses to bind on the
null cursor: `operator%`, `exec`, `fetch`, `reset` and `finalize`. -/
theorem wf_preserved {σ : Type} (E : Engine σ) (hnull : rejects_null_bind E) (fuel : Nat)
    (st : statement) (w : World σ) (hwf : st.wf) :
    (∀ a : BindArg, (st.bind E a w).2.1.wf) ∧
    (st.exec E w).2.1.wf ∧
    (∀ into : Target, (st.fetch E fuel into w).2.1.wf) ∧
    (st.reset E w).2.1.wf ∧
    (st.finalize E w).1.wf := by
  refine ⟨?_, ?_, ?_, ?_, ?_⟩
  · intro a hh
    obtain ⟨c, _, _, _, _, hb⟩ := binder_call_log E st.statement_ st.binder_ a w
    have hh0 : st.statement_ = 0 := hh
    have hrej := hnull w.eng c
    rw [← hh0] at hrej
    show (st.binder_.call E st.statement_ a w).2.1.bound_ = []
    rw [hb]
    have hc : (st.binder_.check (E.sqlite3_bind w.eng st.statement_ c).1).2 = st.binder_ := by
      simp [binder.check, hrej]
    rw [hc]
    exact hwf hh0
  · have h : (st.exec E w).2.1 = st := by
      unfold statement.exec
      dsimp only
      split_ifs <;> rfl
    rw [h]; exact hwf
  · intro into hh
    by_cases hrc : (E.sqlite3_step w.eng st.statement_).1 = SQLITE_ROW ∨
        (E.sqlite3_step w.eng st.statement_).1 = SQLITE_DONE
    · rw [fetch_of_step E fuel st into w _ _ rfl hrc] at hh ⊢
      exact hwf hh
    · have hrc2 : (E.sqlite3_step w.eng st.statement_).1 ≠ SQLITE_ROW ∧
          (E.sqlite3_step w.eng st.statement_).1 ≠ SQLITE_DONE :=
        ⟨fun e => hrc (Or.inl e), fun e => hrc (Or.inr e)⟩
      rw [fetch_of_step_error E fuel st into w _ _ rfl hrc2] at hh ⊢
      exact hwf hh
  · intro hh
    by_cases h0 : st.statement_ = 0
    · simp only [statement.reset, h0, ne_eq, not_true_eq_false, if_false] at hh ⊢
      exact hwf h0
    · by_cases hrc : (native_reset E st.statement_ w).1 ≠ 0
      · simp only [statement.reset, ne_eq, h0, not_false_eq_true, if_true, hrc] at hh
      · simp only [statement.reset, ne_eq, h0, not_false_eq_true, if_true, hrc, if_false] at hh
  · intro _
    by_cases h0 : st.statement_ = 0
    · simp only [statement.finalize, h0, ne_eq, not_true_eq_false, if_false]
      exact hwf h0
    · simp only [statement.finalize, ne_eq, h0, not_false_eq_true, if_true, binder.reset]

/-- On a null handle `finalize()` does nothing. -/
theorem finalize_of_null {σ : Type} (E : Engine σ) (st : statement) (w : World σ)
    (h0 : st.statement_ = 0) : st.finalize E w = (st, w) := by
  simp [statement.finalize, h0]

/-- After `finalize()` the handle is null. -/
theorem finalize_handle_null {σ : Type} (E : Engine σ) (st : statement) (w : World σ) :
    (st.finalize E w).1.statement_ = 0 := by
  by_cases h0 : st.statement_ = 0
  · rw [finalize_of_null E st w h0]; exact h0
  · simp [statement.finalize, h0]

/-- A second `finalize()` changes nothing. -/
theorem finalize_twice {σ : Type} (E : Engine σ) (st : statement) (w : World σ) :
    (st.finalize E w).1.finalize E (st.finalize E w).2 = st.finalize E w :=
  finalize_of_null E _ _ (finalize_handle_null E st w)

/-- One or more `finalize()` calls in a row amount to one. -/
theorem finalize_times_pos {σ : Type} (E : Engine σ) (n : Nat) :
    ∀ (st : statement) (w : World σ),
      statement.finalize_times E (n + 1) st w = st.finalize E w := by
  induction n with
  | zero => intro st w; rfl
  | succ n ih =>
    intro st w
    have hstep : statement.finalize_times E (n + 1 + 1) st w
        = statement.finalize_times E (n + 1) (st.finalize E w).1 (st.finalize E w).2 := rfl
    rw [hstep, ih, finalize_twice]

/-- The native finalize is called once by `finalize()` on a non-null handle and not
at all on a null one. -/
theorem finalize_count_finalize {σ : Type} (E : Engine σ) (st : statement) (w : World σ) :
    finalize_count (st.finalize E w).2.log =
      finalize_count w.log + (if st.statement_ ≠ 0 then 1 else 0) := by
  by_cases h0 : st.statement_ = 0
  · rw [finalize_of_null E st w h0]; simp [h0]
  · simp [statement.finalize, native_finalize, h0, finalize_count, List.countP_append,
      Call.isFinalize]

/-- C12: `finalize()` has no failing path, whatever the native finalize answers (its
status is dropped).  It leaves the handle null, and the binder counter at zero in
every state of the statement, that is every state in which a null handle goes with an
empty `bound_`, as holds from construction on.  A second `finalize()`, and
likewise the destructor after a `finalize()`, issues no native call and leaves
statement, engine and log unchanged; so any number of `finalize()` calls in a row
invokes the native finalize at most once, exactly once when the handle was not
null. -/
theorem C12_finalize_idempotent {σ : Type} (E : Engine σ) (st : statement) (w : World σ) :
    (st.finalize E w).1.statement_ = 0 ∧
    (st.wf → (st.finalize E w).1.binder_.bound_ = []) ∧
    (st.finalize E w).1.finalize E (st.finalize E w).2 = st.finalize E w ∧
    (st.finalize E w).1.destroy E (st.finalize E w).2 = st.finalize E w ∧
    (∀ n : Nat, 0 < n → statement.finalize_times E n st w = st.finalize E w) ∧
    (∀ n : Nat, finalize_count (statement.finalize_times E n st w).2.log
      ≤ finalize_count w.log + 1) ∧
    (st.statement_ ≠ 0 → ∀ n : Nat, 0 < n →
      (statement.finalize_times E n st w).2.log = w.log ++ [Call.finalize st.statement_]) := by
  refine ⟨finalize_handle_null E st w, ?_, finalize_twice E st w, finalize_twice E st w,
    ?_, ?_, ?_⟩
  · intro hwf
    by_cases h0 : st.statement_ = 0
    · rw [finalize_of_null E st w h0]; exact hwf h0
    · simp [statement.finalize, h0, binder.reset]
  · intro n hn
    obtain ⟨m, rfl⟩ : ∃ m, n = m + 1 := ⟨n - 1, by omega⟩
    exact finalize_times_pos E m st w
  · intro n
    cases n with
    | zero => simp [statement.finalize_times]
    | succ m =>
      rw [finalize_times_pos, finalize_count_finalize]
      split_ifs <;> omega
  · intro h0 n hn
    obtain ⟨m, rfl⟩ : ∃ m, n = m + 1 := ⟨n - 1, by omega⟩
    rw [finalize_times_pos]
    simp [statement.finalize, native_finalize, h0]

/-- C12 at a concrete statement: three `finalize()` calls on the statement with
three bound parameters call the native finalize once and leave the handle null and
`bound_` empty; on the already finalized statement nothing is called. -/
theorem C12_finalize_witness :
    (statement.finalize_times table_engine 3 bound_stmt idle_world).1.statement_ = 0 ∧
    (statement.finalize_times table_engine 3 bound_stmt idle_world).1.binder_.bound_ = [] ∧
    (statement.finalize_times table_engine 3 bound_stmt idle_world).2.log
      = [Call.finalize 1] ∧
    (statement.finalize_times table_engine 3 finalized_stmt idle_world).2.log = [] := by
  decide

/-- The table engine answers `SQLITE_MISUSE` to every call on the null cursor. -/
theorem table_engine_null_cursor_misuse : null_cursor_misuse table_engine := by
  intro s
  exact ⟨fun _ => rfl, rfl, rfl, rfl⟩

/-- C13 (amended): under the engine model in which every native call on a null
cursor answers `SQLITE_MISUSE`, on a statement whose handle is null `operator%`,
`exec` and `fetch` throw the `SQLiteError` of that status (with the SQL text as
context for `exec`, with none for the other two), while `reset()` does not fail: it
returns normally, issues no native call and changes nothing. -/
theorem C13_null_handle_operations {σ : Type} (E : Engine σ) (hmis : null_cursor_misuse E)
    (fuel : Nat) (st : statement) (w : World σ) (h0 : st.statement_ = 0) :
    (∀ a : BindArg, (st.bind E a w).1 = .throw (.SQLiteError SQLITE_MISUSE "")) ∧
    (st.exec E w).1 = .throw (.SQLiteError SQLITE_MISUSE st.sql_) ∧
    (∀ into : Target, (st.fetch E fuel into w).1 = .throw (.SQLiteError SQLITE_MISUSE "")) ∧
    ((st.reset E w).1 = .ok () ∧ (st.reset E w).2.1 = st ∧ (st.reset E w).2.2 = w) := by
  obtain ⟨hbind, hstep, _, _⟩ := hmis w.eng
  have hm0 : SQLITE_MISUSE ≠ 0 := by decide
  have hmr : SQLITE_MISUSE ≠ SQLITE_ROW := by decide
  have hmd : SQLITE_MISUSE ≠ SQLITE_DONE := by decide
  refine ⟨?_, ?_, ?_, ?_⟩
  · intro a
    obtain ⟨c, _, _, _, hres, _⟩ := binder_call_log E st.statement_ st.binder_ a w
    show (st.binder_.call E st.statement_ a w).1 = _
    rw [hres, h0, hbind c]
    simp [binder.check, hm0]
  · simp [statement.exec, native_step, h0, hstep, hmr, hmd]
  · intro into
    have herr := fetch_of_step_error E fuel st into w SQLITE_MISUSE
      (E.sqlite3_step w.eng st.statement_).2
      (by rw [h0, ← hstep]) ⟨hmr, hmd⟩
    rw [herr]
  · simp [statement.reset, h0]

/-- C13 as stated fails: on the table engine, which answers `SQLITE_MISUSE` to every
call on the null cursor, `reset()` on the statement with a null handle returns
normally and issues no native call. -/
theorem C13_counterexample_reset_on_null_handle :
    null_cursor_misuse table_engine ∧
    finalized_stmt.statement_ = 0 ∧
    (finalized_stmt.reset table_engine idle_world).1 = .ok () ∧
    (finalized_stmt.reset table_engine idle_world).2.2.log = [] :=
  ⟨table_engine_null_cursor_misuse, by decide, by decide, by decide⟩

/-- C13 (amended) at the statement with a null handle on the table engine: bind and
fetch throw status 21, exec throws it with the SQL text. -/
theorem C13_null_handle_witness :
    (finalized_stmt.bind table_engine (.int 1) idle_world).1 = .throw (.SQLiteError 21 "") ∧
    (finalized_stmt.exec table_engine idle_world).1
      = .throw (.SQLiteError 21 "SELECT a FROM t") :=
  ⟨(C13_null_handle_operations table_engine table_engine_null_cursor_misuse 0
      finalized_stmt idle_world rfl).1 (.int 1),
   (C13_null_handle_operations table_engine table_engine_null_cursor_misuse 0
      finalized_stmt idle_world rfl).2.1⟩

/-! ## Extractor: scalar reads -/

/-- A scalar extraction reads at the column index equal to the counter, with one
native read, the one of its specialisation, and advances the counter by one. -/
theorem scalar_extraction_native_read {σ : Type} (E : Engine σ) (h : Nat) (x : extractor)
    (into : value) (w : World σ) :
    (x.call_scalar E h into w).1 = { extracted_ := x.extracted_ ++ [true] } ∧
    (x.call_scalar E h into w).2.2.eng = w.eng ∧
    (x.call_scalar E h into w).2.2.log
      = w.log ++ [native_read_of into h x.extracted_.length] := by
  cases into <;> exact ⟨rfl, rfl, rfl⟩

/-- A sequence of scalar extractions reads the columns in order: from a counter at
`e`, the `i`-th extraction reads column `e + i - 1`. -/
theorem scalar_extractions_read_in_column_order {σ : Type} (E : Engine σ) (h : Nat)
    (targets : List value) :
    ∀ (x : extractor) (w : World σ),
      (extractor.call_all E h targets x w).1.extracted_.length
        = x.extracted_.length + targets.length ∧
      ∃ calls : List Call,
        (extractor.call_all E h targets x w).2.2.log = w.log ++ calls ∧
        calls.map Call.readIdx =
          (List.range targets.length).map (fun i => some (x.extracted_.length + i)) := by
  induction targets with
  | nil => intro x w; exact ⟨rfl, [], by simp [extractor.call_all], by simp⟩
  | cons t rest ih =>
    intro x w
    obtain ⟨h1, _, h3⟩ := scalar_extraction_native_read E h x t w
    obtain ⟨r1, calls, r2, r3⟩ := ih (x.call_scalar E h t w).1 (x.call_scalar E h t w).2.2
    simp only [extractor.call_all]
    refine ⟨?_, ?_⟩
    · rw [r1, h1]; simp; omega
    · refine ⟨native_read_of t h x.extracted_.length :: calls, by rw [r2, h3]; simp, ?_⟩
      rw [List.length_cons, List.range_succ_eq_map]
      simp only [List.map_cons, List.map_map]
      rw [r3, h1]
      refine congrArg₂ _ ?_ ?_
      · cases t <;> simp [Call.readIdx, native_read_of]
      · simp
        intro i _
        omega

/-- C14, the code at the failing input: an extraction into a `long` issues
`sqlite3_column_int`, not `sqlite3_column_int64`, at the column index equal to the
counter, and stores what that 32-bit read returns.  On a row whose column holds
4294967296 the `long` target becomes 0 while a `long long` target, read with
`sqlite3_column_int64`, becomes 4294967296. -/
theorem C14_long_extraction_reads_column_int {σ : Type} (E : Engine σ) (h : Nat)
    (x : extractor) (v : Int) (w : World σ) :
    (x.call_scalar E h (.long v) w).2.2.log
      = w.log ++ [Call.column_int h x.extracted_.length] ∧
    (x.call_scalar E h (.long v) w).2.1
      = .long (E.sqlite3_column_int w.eng h x.extracted_.length) ∧
    (x.call_scalar E h (.longlong v) w).2.2.log
      = w.log ++ [Call.column_int64 h x.extracted_.length] ∧
    ((extractor.mk [true]).reset.call_scalar table_engine 1 (.long 7) big_integer_row).2.1
      = .long 0 ∧
    ((extractor.mk [true]).reset.call_scalar table_engine 1 (.long 7) big_integer_row).2.2.log
      = [Call.column_int 1 0] ∧
    ((extractor.mk [true]).reset.call_scalar table_engine 1 (.longlong 7) big_integer_row).2.1
      = .longlong 4294967296 :=
  ⟨rfl, rfl, rfl, by decide, by decide, by decide⟩

/-- C15 (amended): when the native text read of a string extraction answers the
null pointer, the extraction returns normally, the counter advances by one, one
`sqlite3_column_text` is logged, and the target string is left as it was: empty
when it was empty before, its prior contents otherwise. -/
theorem C15_string_extraction_of_null_text {σ : Type} (E : Engine σ) (h fuel : Nat)
    (x : extractor) (into : String) (w : World σ)
    (hnull : E.sqlite3_column_text w.eng h x.extracted_.length = none) :
    (x.call E h fuel (.scalar (.string into)) w).1 = .ok () ∧
    (x.call E h fuel (.scalar (.string into)) w).2.1.extracted_.length
      = x.extracted_.length + 1 ∧
    (x.call E h fuel (.scalar (.string into)) w).2.2.1 = .scalar (.string into) ∧
    (x.call_string E h into w).2.1 = into ∧
    (into = "" → (x.call_string E h into w).2.1 = "") ∧
    (x.call E h fuel (.scalar (.string into)) w).2.2.2.log
      = w.log ++ [Call.column_text h x.extracted_.length] := by
  have hs : (x.call_string E h into w).2.1 = into := by
    simp [extractor.call_string, hnull]
  refine ⟨rfl, by simp [extractor.call, extractor.call_scalar, extractor.call_string], ?_, hs,
    fun he => by rw [hs, he], rfl⟩
  simp [extractor.call, extractor.call_scalar, hs]

/-- C15 as stated fails: the native text read answers null and the target, which
held `stale`, still holds `stale` afterwards, not the empty string.  In a rowset of
`std::string` over a row holding `x` followed by a row whose text is null, the
second dereference sees `x` again. -/
theorem C15_counterexample_target_keeps_prior_contents :
    table_engine.sqlite3_column_text null_text_row.eng 1 0 = none ∧
    ((extractor.mk []).call_string table_engine 1 "stale" null_text_row).2.1 = "stale" ∧
    ((extractor.mk []).call_string table_engine 1 "stale" null_text_row).1.extracted_.length
      = 1 ∧
    "stale" ≠ "" ∧
    (string_rowset.iterate table_engine 0 2
      (table_world [[text_column "a" "x"], [null_text_column "a"]])).2.1
        = [.scalar (.string "x"), .scalar (.string "x")] := by
  decide

/-- C15 (amended) at a concrete extraction: null text into an empty target leaves it
empty and advances the counter from 0 to 1. -/
theorem C15_string_extraction_witness :
    ((extractor.mk []).call table_engine 1 0 (.scalar (.string "")) null_text_row).1 = .ok () ∧
    ((extractor.mk []).call table_engine 1 0 (.scalar (.string "")) null_text_row).2.2.1
      = .scalar (.string "") :=
  ⟨(C15_string_extraction_of_null_text table_engine 1 0 (extractor.mk []) "" null_text_row
      (by decide)).1,
   (C15_string_extraction_of_null_text table_engine 1 0 (extractor.mk []) "" null_text_row
      (by decide)).2.2.1⟩

/-! ## Failed binds and failed fetches -/

/-- C16 (amended): when the native bind issued by `operator%` answers a non-zero
status `rc`, the exception surfaced to the caller is the `SQLiteError` built from
`rc` alone: it carries `rc`, its context string is empty, and its message is the
formatted code and description with nothing between the parentheses. -/
theorem C16_bind_error_carries_status_only {σ : Type} (E : Engine σ) (st : statement)
    (a : BindArg) (w : World σ) :
    ∃ c : NativeBind,
      (st.bind E a w).2.2.log = w.log ++ [Call.bind st.statement_ c] ∧
      ((E.sqlite3_bind w.eng st.statement_ c).1 ≠ 0 →
        (st.bind E a w).1
          = .throw (.SQLiteError (E.sqlite3_bind w.eng st.statement_ c).1 "") ∧
        ∀ e : Exn, (st.bind E a w).1 = .throw e →
          e.context = "" ∧
          e.what = SQLiteError_format (E.sqlite3_bind w.eng st.statement_ c).1 "") := by
  obtain ⟨c, _, hlog, _, hres, _⟩ := binder_call_log E st.statement_ st.binder_ a w
  refine ⟨c, hlog, ?_⟩
  intro hrc
  have hthrow : (st.bind E a w).1
      = .throw (.SQLiteError (E.sqlite3_bind w.eng st.statement_ c).1 "") := by
    show (st.binder_.call E st.statement_ a w).1 = _
    rw [hres]; simp [binder.check, hrc]
  refine ⟨hthrow, ?_⟩
  intro e he
  rw [hthrow] at he
  cases he
  exact ⟨rfl, rfl⟩

/-- C16 as stated fails: a bind on the null cursor of the table engine is answered
21; the exception carries 21 and an empty context, and its message
`SQLITE[21]: Library used incorrectly ()` does not name the operation. -/
theorem C16_counterexample_empty_context :
    (finalized_stmt.bind table_engine (.string "hello") idle_world).1
      = .throw (.SQLiteError 21 "") ∧
    (Exn.SQLiteError 21 "").context = "" ∧
    (Exn.SQLiteError 21 "").what = "SQLITE[21]: Library used incorrectly ()" := by
  decide

/-- C16 (amended) at a concrete bind: position 2 is out of range for the statement
`SELECT ?`, the engine answers 25 and the exception carries 25 with an empty
context. -/
theorem C16_bind_error_witness :
    (({ select_param with binder_ := { bound_ := [true] } } : statement).bind param_engine
        (.int 3) param_world).1 = .throw (.SQLiteError 25 "") ∧
    (Exn.SQLiteError 25 "").what = "SQLITE[25]: 2nd parameter to sqlite3_bind out of range ()" := by
  decide

/-- C17: a bind call on a binder whose counter is `n` issues its native bind at
position `n + 1`; when that native bind answers a non-zero status the call throws
and the binder is left as it was, counter at `n`, so that the next bind call, of any
argument and in any engine state, again issues its native bind at position
`n + 1`. -/
theorem C17_failed_bind_keeps_counter {σ : Type} (E : Engine σ) (h : Nat) (b : binder)
    (a : BindArg) (w : World σ) :
    ∃ c : NativeBind, c.pos = b.bound_.length + 1 ∧
      (b.call E h a w).2.2.log = w.log ++ [Call.bind h c] ∧
      ((E.sqlite3_bind w.eng h c).1 ≠ 0 →
        (b.call E h a w).1.isThrow = true ∧
        (b.call E h a w).2.1 = b ∧
        (b.call E h a w).2.1.bound_.length = b.bound_.length ∧
        ∀ (a1 : BindArg) (w1 : World σ), ∃ c1 : NativeBind,
          c1.pos = c.pos ∧
          (((b.call E h a w).2.1).call E h a1 w1).2.2.log = w1.log ++ [Call.bind h c1]) := by
  obtain ⟨c, hpos, hlog, _, hres, hb⟩ := binder_call_log E h b a w
  refine ⟨c, hpos, hlog, ?_⟩
  intro hrc
  have hkeep : (b.call E h a w).2.1 = b := by
    rw [hb]; simp [binder.check, hrc]
  refine ⟨by rw [hres]; simp [binder.check, hrc, Res.isThrow], hkeep, by rw [hkeep], ?_⟩
  intro a1 w1
  rw [hkeep]
  obtain ⟨c1, hpos1, hlog1, _⟩ := binder_call_log E h b a1 w1
  exact ⟨c1, by rw [hpos1, hpos], hlog1⟩

/-- C17 at a concrete binder: with two parameters bound, a bind at position 3 is
out of range for the statement `SELECT ?` and is refused with status 25; the binder
keeps its two marks, and the bind after it goes to position 3 like the refused
one. -/
theorem C17_failed_bind_witness :
    ((binder.mk [true, true]).call param_engine 1 (.int 9) param_world).1
      = .throw (.SQLiteError 25 "") ∧
    ((binder.mk [true, true]).call param_engine 1 (.int 9) param_world).2.2.log
      = [Call.bind 1 (.int 3 9)] ∧
    ((binder.mk [true, true]).call param_engine 1 (.int 9) param_world).2.1
      = binder.mk [true, true] ∧
    ((((binder.mk [true, true]).call param_engine 1 (.int 9) param_world).2.1).call
        param_engine 1 (.string "x") param_world).2.2.log
      = [Call.bind 1 (.text 3 "x" 2)] := by
  decide

/-- C19: when the engine step of `fetch` reports a status other than `SQLITE_ROW`
and `SQLITE_DONE`, `fetch` throws the `SQLiteError` of that status having issued
that one step and nothing else: the statement, with its extractor counter and its
binder counter, and the target are exactly what they were before the call. -/
theorem C19_failed_fetch_touches_nothing {σ : Type} (E : Engine σ) (fuel : Nat)
    (st : statement) (into : Target) (w : World σ)
    (hrow : (E.sqlite3_step w.eng st.statement_).1 ≠ SQLITE_ROW)
    (hdone : (E.sqlite3_step w.eng st.statement_).1 ≠ SQLITE_DONE) :
    (st.fetch E fuel into w).1
      = .throw (.SQLiteError (E.sqlite3_step w.eng st.statement_).1 "") ∧
    (st.fetch E fuel into w).2.1 = st ∧
    (st.fetch E fuel into w).2.1.extractor_.extracted_ = st.extractor_.extracted_ ∧
    (st.fetch E fuel into w).2.1.binder_.bound_ = st.binder_.bound_ ∧
    (st.fetch E fuel into w).2.2.1 = into ∧
    (st.fetch E fuel into w).2.2.2.log = w.log ++ [Call.step st.statement_] := by
  have herr := fetch_of_step_error E fuel st into w _ _ rfl ⟨hrow, hdone⟩
  rw [herr]
  exact ⟨rfl, rfl, rfl, rfl, rfl, rfl⟩

/-- C19 at a concrete fetch: on the null cursor the step is answered 21; the fetch
into a row throws, the row and the two marks of the extractor are untouched. -/
theorem C19_failed_fetch_witness :
    (stale_extractor_stmt.fetch table_engine 5 (.row (row.mk [("a", .int 1)])) idle_world).1
      = .throw (.SQLiteError 21 "") ∧
    (stale_extractor_stmt.fetch table_engine 5 (.row (row.mk [("a", .int 1)]))
      idle_world).2.1 = stale_extractor_stmt ∧
    (stale_extractor_stmt.fetch table_engine 5 (.row (row.mk [("a", .int 1)]))
      idle_world).2.2.1 = .row (row.mk [("a", .int 1)]) :=
  ⟨(C19_failed_fetch_touches_nothing table_engine 5 stale_extractor_stmt
      (.row (row.mk [("a", .int 1)])) idle_world (by decide) (by decide)).1,
   (C19_failed_fetch_touches_nothing table_engine 5 stale_extractor_stmt
      (.row (row.mk [("a", .int 1)])) idle_world (by decide) (by decide)).2.1,
   (C19_failed_fetch_touches_nothing table_engine 5 stale_extractor_stmt
      (.row (row.mk [("a", .int 1)])) idle_world (by decide) (by decide)).2.2.2.2.1⟩

/-! ## Extractor: termination of the generic-row loop -/

/-- One pass of the loop body on a column of recognised declared type logs one
`sqlite3_column_decltype` and advances the counter by one. -/
theorem row_loop_step_counts {σ : Type} (E : Engine σ) (h : Nat) (cnt : Int) (fuel : Nat)
    (x : extractor) (into : row) (w : World σ)
    (hmore : to_size_t cnt > x.extracted_.length)
    (hrec : recognised (E.sqlite3_column_decltype w.eng h x.extracted_.length)) :
    ∃ (into1 : row) (w1 : World σ),
      iteration_count w1.log = iteration_count w.log + 1 ∧
      extractor.row_loop E h cnt (fuel + 1) x into w =
        extractor.row_loop E h cnt fuel { extracted_ := x.extracted_ ++ [true] } into1 w1 := by
  have hnt : ¬ (some "TEXT" = (none : Option String)) := by decide
  have hnf : ¬ (some "FLOAT" = (none : Option String)) := by decide
  have hni : ¬ (some "INTEGER" = (none : Option String)) := by decide
  have hft : ¬ (some "FLOAT" = some "TEXT") := by decide
  have hti : ¬ (some "INTEGER" = some "TEXT") := by decide
  have hfi : ¬ (some "INTEGER" = some "FLOAT") := by decide
  rcases hrec with ht | hf | hi
  · refine ⟨into.add (E.sqlite3_column_name w.eng h x.extracted_.length)
        (decoded_cell E w.eng h x.extracted_.length),
      ((w.note (Call.column_decltype h x.extracted_.length)).note
        (Call.column_name h x.extracted_.length)).note (Call.column_text h x.extracted_.length),
      by simp [World.note, iteration_count, List.countP_append, Call.isDecltype], ?_⟩
    simp only [extractor.row_loop, hmore, if_true, World.note, ht, hnt, if_false,
      extractor.call_string, decoded_cell]
  · refine ⟨into.add (E.sqlite3_column_name w.eng h x.extracted_.length)
        (decoded_cell E w.eng h x.extracted_.length),
      ((w.note (Call.column_decltype h x.extracted_.length)).note
        (Call.column_name h x.extracted_.length)).note
          (Call.column_double h x.extracted_.length),
      by simp [World.note, iteration_count, List.countP_append, Call.isDecltype], ?_⟩
    simp only [extractor.row_loop, hmore, if_true, World.note, hf, hnf, hft, if_false,
      extractor.call_double, decoded_cell]
  · refine ⟨into.add (E.sqlite3_column_name w.eng h x.extracted_.length)
        (decoded_cell E w.eng h x.extracted_.length),
      ((w.note (Call.column_decltype h x.extracted_.length)).note
        (Call.column_name h x.extracted_.length)).note (Call.column_int h x.extracted_.length),
      by simp [World.note, iteration_count, List.countP_append, Call.isDecltype], ?_⟩
    simp only [extractor.row_loop, hmore, if_true, World.note, hi, hni, hti, hfi, if_false,
      extractor.call_int, decoded_cell]

/-- With a budget of at least the number of columns left, the generic-row loop does
not run out of budget; it makes at most that many iterations; and when it returns
normally the counter is the larger of the count and the counter it started from. -/
theorem row_loop_bounded {σ : Type} (E : Engine σ) (h : Nat) (cnt : Int) (fuel : Nat) :
    ∀ (x : extractor) (into : row) (w : World σ),
      to_size_t cnt - x.extracted_.length ≤ fuel →
      (extractor.row_loop E h cnt fuel x into w).1 ≠ .timeout ∧
      ((extractor.row_loop E h cnt fuel x into w).1 = .ok () →
        (extractor.row_loop E h cnt fuel x into w).2.1.extracted_.length
          = max (to_size_t cnt) x.extracted_.length) ∧
      iteration_count (extractor.row_loop E h cnt fuel x into w).2.2.2.log
        ≤ iteration_count w.log + (to_size_t cnt - x.extracted_.length) := by
  induction fuel with
  | zero =>
    intro x into w hle
    rw [row_loop_done E h cnt 0 x into w (by omega)]
    refine ⟨by simp, fun _ => ?_, by simp⟩
    simp only []
    omega
  | succ f ih =>
    intro x into w hle
    by_cases hm : to_size_t cnt > x.extracted_.length
    · by_cases hr : recognised (E.sqlite3_column_decltype w.eng h x.extracted_.length)
      · obtain ⟨into1, w1, hcount, hstep⟩ := row_loop_step_counts E h cnt f x into w hm hr
        rw [hstep]
        have hlen : ({ extracted_ := x.extracted_ ++ [true] } : extractor).extracted_.length
            = x.extracted_.length + 1 := by simp
        obtain ⟨i1, i2, i3⟩ := ih { extracted_ := x.extracted_ ++ [true] } into1 w1
          (by rw [hlen]; omega)
        refine ⟨i1, fun hok => ?_, ?_⟩
        · rw [i2 hok, hlen]; omega
        · rw [hlen, hcount] at i3; omega
      · by_cases hnull : E.sqlite3_column_decltype w.eng h x.extracted_.length = none
        · rw [row_loop_null_decltype E h cnt f x into w hm hnull]
          refine ⟨by simp, fun hok => by simp at hok, ?_⟩
          simp [World.note, iteration_count, List.countP_append, Call.isDecltype]
          omega
        · rw [row_loop_unrecognised E h cnt f x into w hm hnull hr]
          refine ⟨by simp, fun hok => by simp at hok, ?_⟩
          simp [World.note, iteration_count, List.countP_append, Call.isDecltype]
          omega
    · rw [row_loop_done E h cnt (f + 1) x into w (by omega)]
      refine ⟨by simp, fun _ => ?_, by simp⟩
      simp only []
      omega

/-- C18: for a non-negative engine-reported column count `c` and an extractor
counter `e`, the generic-row extraction given a budget of `max(c - e, 0)` iterations
(or more) does not run out of it: the loop ends after at most `max(c - e, 0)`
iterations, because each iteration either fails with counter and row as they were
or goes on with the counter advanced by exactly one.  An iteration fails by throwing
the unsupported-conversion error when the declared type is a string other than
TEXT, FLOAT, INTEGER, and by crashing in `strcmp` when the engine answers the null
pointer for the declared type; it advances when the declared type is one of the
three.  When the extraction returns normally the counter equals `max(c, e)`; when
`e >= c` it returns normally having issued `sqlite3_column_count` only, with counter
and row unchanged. -/
theorem C18_row_decode_terminates {σ : Type} (E : Engine σ) (h c fuel : Nat) (x : extractor)
    (into : row) (w : World σ)
    (hc : E.sqlite3_column_count w.eng h = (c : Int)) (hint : c < 2 ^ 31)
    (hfuel : c - x.extracted_.length ≤ fuel) :
    (x.call_row E h fuel into w).1 ≠ .timeout ∧
    iteration_count (x.call_row E h fuel into w).2.2.2.log
      ≤ iteration_count w.log + (c - x.extracted_.length) ∧
    ((x.call_row E h fuel into w).1 = .ok () →
      (x.call_row E h fuel into w).2.1.extracted_.length = max c x.extracted_.length) ∧
    (c ≤ x.extracted_.length →
      x.call_row E h fuel into w = (.ok (), x, into, w.note (Call.column_count h))) ∧
    (∀ (f : Nat) (x1 : extractor) (into1 : row) (w1 : World σ),
      c > x1.extracted_.length →
      (E.sqlite3_column_decltype w1.eng h x1.extracted_.length = none →
        (extractor.row_loop E h (c : Int) (f + 1) x1 into1 w1).1 = .crash ∧
        (extractor.row_loop E h (c : Int) (f + 1) x1 into1 w1).2.1 = x1 ∧
        (extractor.row_loop E h (c : Int) (f + 1) x1 into1 w1).2.2.1 = into1) ∧
      (E.sqlite3_column_decltype w1.eng h x1.extracted_.length ≠ none →
        ¬ recognised (E.sqlite3_column_decltype w1.eng h x1.extracted_.length) →
        (extractor.row_loop E h (c : Int) (f + 1) x1 into1 w1).1
          = .throw (.SQLiteError SQLITE_ERROR "Unsuported conversion") ∧
        (extractor.row_loop E h (c : Int) (f + 1) x1 into1 w1).2.1 = x1 ∧
        (extractor.row_loop E h (c : Int) (f + 1) x1 into1 w1).2.2.1 = into1) ∧
      (recognised (E.sqlite3_column_decltype w1.eng h x1.extracted_.length) →
        ∃ (into2 : row) (w2 : World σ),
          extractor.row_loop E h (c : Int) (f + 1) x1 into1 w1 =
            extractor.row_loop E h (c : Int) f { extracted_ := x1.extracted_ ++ [true] }
              into2 w2)) := by
  have hsz : to_size_t (c : Int) = c := to_size_t_natCast c (by omega)
  have hb := row_loop_bounded E h (c : Int) fuel x into (w.note (Call.column_count h))
    (by rw [hsz]; exact hfuel)
  rw [hsz] at hb
  have hcall : x.call_row E h fuel into w
      = extractor.row_loop E h (c : Int) fuel x into (w.note (Call.column_count h)) := by
    unfold extractor.call_row
    rw [hc]
  have hnote : iteration_count (w.note (Call.column_count h)).log = iteration_count w.log := by
    simp [World.note, iteration_count, List.countP_append, Call.isDecltype]
  rw [hcall]
  refine ⟨hb.1, by rw [← hnote]; exact hb.2.2, hb.2.1, ?_, ?_⟩
  · intro hle
    exact row_loop_done E h (c : Int) fuel x into _ (by rw [hsz]; exact hle)
  · intro f x1 into1 w1 hmore
    have hm : to_size_t (c : Int) > x1.extracted_.length := by rw [hsz]; exact hmore
    refine ⟨?_, ?_, ?_⟩
    · intro hnull
      rw [row_loop_null_decltype E h (c : Int) f x1 into1 w1 hm hnull]
      exact ⟨rfl, rfl, rfl⟩
    · intro hstr hr
      rw [row_loop_unrecognised E h (c : Int) f x1 into1 w1 hm hstr hr]
      exact ⟨rfl, rfl, rfl⟩
    · intro hr
      obtain ⟨into2, w2, _, hstep⟩ := row_loop_step_counts E h (c : Int) f x1 into1 w1 hm hr
      exact ⟨into2, w2, hstep⟩

/-- C18 at concrete extractions on a row of three columns: from a counter at 1 and
with a budget of 2 the loop returns with the counter at 3 after two iterations; from
a counter at 4 it returns at once with the counter at 4 and the row untouched.  On
the engine for `SELECT ?`, whose column has no declared type, the first iteration
crashes: the extraction ends within its budget of one iteration, counter at 0 and
row empty. -/
theorem C18_row_decode_witness :
    ((extractor.mk [true]).call_row table_engine 1 2 row.empty three_columns).1 ≠ .timeout ∧
    ((extractor.mk [true]).call_row table_engine 1 2 row.empty three_columns).1 = .ok () ∧
    ((extractor.mk [true]).call_row table_engine 1 2 row.empty
      three_columns).2.1.extracted_.length = 3 ∧
    iteration_count ((extractor.mk [true]).call_row table_engine 1 2 row.empty
      three_columns).2.2.2.log = 2 ∧
    ((extractor.mk [true, true, true, true]).call_row table_engine 1 0
      (row.mk [("z", .int 1)]) three_columns).2.1.extracted_.length = 4 ∧
    ((extractor.mk [true, true, true, true]).call_row table_engine 1 0
      (row.mk [("z", .int 1)]) three_columns).2.2.1 = row.mk [("z", .int 1)] ∧
    ((extractor.mk [true, true, true, true]).call_row table_engine 1 0
      (row.mk [("z", .int 1)]) three_columns).2.2.2.log = [Call.column_count 1] ∧
    ((extractor.mk []).call_row param_engine 1 1 row.empty param_world).1 ≠ .timeout ∧
    (extractor.mk []).call_row param_engine 1 1 row.empty param_world
      = (.crash, extractor.mk [], row.empty,
          { eng := param_world.eng,
            log := [Call.column_count 1, Call.column_decltype 1 0, Call.column_name 1 0] }) :=
  ⟨(C18_row_decode_terminates table_engine 1 3 2 (extractor.mk [true]) row.empty
      three_columns (by decide) (by decide) (by decide)).1,
   by decide, by decide, by decide, by decide, by decide, by decide,
   (C18_row_decode_terminates param_engine 1 1 1 (extractor.mk []) row.empty
      param_world (by decide) (by decide) (by decide)).1,
   rfl⟩

end sqlitexx
